import Mathlib

/-!
Verification of the `interpolators` Go package (schollz/interpolation).

The package resamples a sequence of uniformly spaced samples to an arbitrary
output length using one of 19 interpolation kernels, selected by an integer
`InterpolatorType`.  This file gives a shallow embedding of the package over
`ℝ` (the idealisation of Go's `float64`) and `List ℝ` (Go slices), and proves
or refutes the specification's claims about it.

Modelling conventions, used throughout:

* Go `float64` arithmetic is modelled by exact real arithmetic.  The single
  place where a non-finite float value is reachable — the six kernel routines
  that compute `ratio := float64(len(in)-1) / float64(outSamples-1)` without
  guarding `outSamples > 1`, so that `outSamples = 1` yields `ratio = +Inf`
  and positions `0*Inf = NaN` — is modelled explicitly by an `Option ℝ`
  ratio (`ratioUnguarded`): `none` stands for the non-finite value.  In IEEE
  arithmetic every comparison with NaN (and `Inf < 1`, `Inf < 2`, ...) is
  false, so every kernel weight evaluates to `0` through its final `else`
  branch and each produced sample is `0`; the embedding returns `0` for an
  output sample whose position is non-finite, which is the value the Go code
  computes.
* Go `in[j]` reads are in range everywhere they are executed (proved as claim
  C10); the plain embeddings therefore read with `List.getD _ _ 0`, and a
  separately instrumented `Option`-returning variant of the three routines
  named by C10 models the out-of-range read / negative allocation failures.
* `int(x)` on a nonnegative float is `⌊x⌋`; `math.Round x` and `int(x+0.5)`
  on a nonnegative float are both `⌊x + 1/2⌋`.  All positions fed to these
  conversions are nonnegative (output index ≥ 0 times a nonnegative ratio).
-/

noncomputable section

namespace Interpolators

/-! ### Kernel selector constants

Go: `type InterpolatorType int` with `iota` constants.  An "unrecognized
selector" is any integer outside `[0, 19]`. -/

def None : ℤ := 0
def DropSample : ℤ := 1
def Linear : ℤ := 2
def BSpline3 : ℤ := 3
def BSpline5 : ℤ := 4
def Lagrange4 : ℤ := 5
def Lagrange6 : ℤ := 6
def Watte : ℤ := 7
def Parabolic2x : ℤ := 8
def Osculating4 : ℤ := 9
def Osculating6 : ℤ := 10
def Hermite4 : ℤ := 11
def Hermite6_3 : ℤ := 12
def Hermite6_5 : ℤ := 13
def CubicSpline : ℤ := 14
def MonotonicCubic : ℤ := 15
def Lanczos2 : ℤ := 16
def Lanczos3 : ℤ := 17
def Bezier : ℤ := 18
def Akima : ℤ := 19

/-! ### Position mapping -/

/-- Guarded resampling ratio: Go
`if outSamples > 1 { ratio = float64(len(in)-1) / float64(outSamples-1) } else { ratio = 0 }`.
Used by every interpolation routine except the six listed at `ratioUnguarded`.
At its call sites `n = len(in) ≥ 2`. -/
def ratioFor (n m : ℕ) : ℝ := if 1 < m then ((n : ℝ) - 1) / ((m : ℝ) - 1) else 0

/-- Unguarded resampling ratio: Go
`ratio := float64(len(in)-1) / float64(outSamples-1)` with no `outSamples > 1`
guard (the hermite4/hermite6_3/hermite6_5/lanczos2/lanczos3/bezier routines).
At its call sites `n ≥ 2`, so for `outSamples = 1` the Go division is
`(n-1)/0 = +Inf`, a non-finite value, modelled as `none` (see the module
comment).  For `outSamples = 0` the Go value is the finite `(n-1)/(-1)`. -/
def ratioUnguarded (n m : ℕ) : Option ℝ :=
  if m = 1 then Option.none else Option.some (((n : ℝ) - 1) / ((m : ℝ) - 1))

/-! ### Kernel polynomial pieces

One definition per closed-form polynomial piece of each impulse response,
exactly as written in the Go source (both in the standalone `*Impulse`
functions and inlined in the `*Interpolate` loops). `P0` is the piece for
distances in `[0,1)`, `P1` for `[1,2)`, `P2` for `[2,3)`. -/

def dropSampleP0 (_t : ℝ) : ℝ := 1

def linearP0 (t : ℝ) : ℝ := 1 - t

def bspline3P0 (t : ℝ) : ℝ := 2/3 - t*t + (1/2) * (t*t*t)
def bspline3P1 (t : ℝ) : ℝ := 4/3 - 2*t + t*t - (t*t*t)/6

def bspline5P0 (t : ℝ) : ℝ := 11/20 - (1/2)*(t*t) + (1/4)*(t*t*(t*t)) - (t*t*(t*t)*t)/12
def bspline5P1 (t : ℝ) : ℝ :=
  17/40 + 5*t/8 - 7*(t*t)/4 + 5*(t*t*t)/4 - 3*(t*t*(t*t))/8 + (t*t*(t*t)*t)/24
def bspline5P2 (t : ℝ) : ℝ :=
  81/40 - 27*t/8 + 9*(t*t)/4 - 3*(t*t*t)/4 + (t*t*(t*t))/8 - (t*t*(t*t)*t)/120

def lagrange4P0 (t : ℝ) : ℝ := 1 - (1/2)*t - t*t + (1/2)*(t*t*t)
def lagrange4P1 (t : ℝ) : ℝ := 1 - 11*t/6 + t*t - (t*t*t)/6

def lagrange6P0 (t : ℝ) : ℝ :=
  1 - t/3 - 5*(t*t)/4 + 5*(t*t*t)/12 + (t*t*(t*t))/4 - (t*t*(t*t)*t)/12
def lagrange6P1 (t : ℝ) : ℝ :=
  1 - 13*t/12 - 5*(t*t)/8 + 25*(t*t*t)/24 - 3*(t*t*(t*t))/8 + (t*t*(t*t)*t)/24
def lagrange6P2 (t : ℝ) : ℝ :=
  1 - 137*t/60 + 15*(t*t)/8 - 17*(t*t*t)/24 + (t*t*(t*t))/8 - (t*t*(t*t)*t)/120

def watteP0 (t : ℝ) : ℝ := 1 - (1/2)*t - (1/2)*(t*t)
def watteP1 (t : ℝ) : ℝ := 1 - (3/2)*t + (1/2)*(t*t)

def parabolic2xP0 (t : ℝ) : ℝ := 1/2 - (1/4)*(t*t)
def parabolic2xP1 (t : ℝ) : ℝ := 1 - t + (1/4)*(t*t)

def osculating4P0 (t : ℝ) : ℝ :=
  1 - t*t - (9/2)*(t*t*t) + (15/2)*(t*t*(t*t)) - 3*(t*t*(t*t)*t)
def osculating4P1 (t : ℝ) : ℝ :=
  -4 + 18*t - 29*(t*t) + (43/2)*(t*t*t) - (15/2)*(t*t*(t*t)) + t*t*(t*t)*t

def osculating6P0 (t : ℝ) : ℝ :=
  1 - (5/4)*(t*t) - (35/12)*(t*t*t) + (21/4)*(t*t*(t*t)) - (25/12)*(t*t*(t*t)*t)
def osculating6P1 (t : ℝ) : ℝ :=
  -4 + (75/4)*t - (245/8)*(t*t) + (545/24)*(t*t*t) - (63/8)*(t*t*(t*t)) + (25/24)*(t*t*(t*t)*t)
def osculating6P2 (t : ℝ) : ℝ :=
  18 - (153/4)*t + (255/8)*(t*t) - (313/24)*(t*t*t) + (21/8)*(t*t*(t*t)) - (5/24)*(t*t*(t*t)*t)

def hermite4P0 (t : ℝ) : ℝ := 1 - (5/2)*(t*t) + (3/2)*(t*t*t)
def hermite4P1 (t : ℝ) : ℝ := 2 - 4*t + (5/2)*(t*t) - (1/2)*(t*t*t)

def hermite6_3P0 (t : ℝ) : ℝ := 1 - (7/3)*(t*t) + (4/3)*(t*t*t)
def hermite6_3P1 (t : ℝ) : ℝ := 5/2 - (59/12)*t + 3*(t*t) - (7/12)*(t*t*t)
def hermite6_3P2 (t : ℝ) : ℝ := -(3/2) + (7/4)*t - (2/3)*(t*t) + (1/12)*(t*t*t)

def hermite6_5P0 (t : ℝ) : ℝ :=
  1 - (25/12)*(t*t) + (5/12)*(t*t*t) + (13/12)*(t*t*(t*t)) - (5/12)*(t*t*(t*t)*t)
def hermite6_5P1 (t : ℝ) : ℝ :=
  1 + (5/12)*t - (35/8)*(t*t) + (35/8)*(t*t*t) - (13/8)*(t*t*(t*t)) + (5/24)*(t*t*(t*t)*t)
def hermite6_5P2 (t : ℝ) : ℝ :=
  3 - (29/4)*t + (155/24)*(t*t) - (65/24)*(t*t*t) + (13/24)*(t*t*(t*t)) - (1/24)*(t*t*(t*t)*t)

def bezierP0 (t : ℝ) : ℝ := 1 - 3*(t*t) + 2*(t*t*t)
def bezierP1 (t : ℝ) : ℝ := (2 - t) * (2 - t) * (3 - 2*(2 - t)) / 8

/-! ### Inlined kernel weight functions

Each `*Interpolate` loop in the Go source inlines its impulse-response
formula, applied to the nonnegative distance `|pos - j|`.  The branch
structure below copies the inlined code: the bspline/lagrange/watte/
parabolic/osculating loops test only upper bounds (`absX < 1`,
`else if absX < 2`, ...), while the hermite/bezier loops repeat the lower
bounds (`distance >= 0 && distance < 1`, ...), and the lanczos loops test
`distance < 1e-10` first. -/

def bspline3Kernel (t : ℝ) : ℝ :=
  if t < 1 then bspline3P0 t else if t < 2 then bspline3P1 t else 0

def bspline5Kernel (t : ℝ) : ℝ :=
  if t < 1 then bspline5P0 t else if t < 2 then bspline5P1 t
  else if t < 3 then bspline5P2 t else 0

def lagrange4Kernel (t : ℝ) : ℝ :=
  if t < 1 then lagrange4P0 t else if t < 2 then lagrange4P1 t else 0

def lagrange6Kernel (t : ℝ) : ℝ :=
  if t < 1 then lagrange6P0 t else if t < 2 then lagrange6P1 t
  else if t < 3 then lagrange6P2 t else 0

def watteKernel (t : ℝ) : ℝ :=
  if t < 1 then watteP0 t else if t < 2 then watteP1 t else 0

def parabolic2xKernel (t : ℝ) : ℝ :=
  if t < 1 then parabolic2xP0 t else if t < 2 then parabolic2xP1 t else 0

def osculating4Kernel (t : ℝ) : ℝ :=
  if t < 1 then osculating4P0 t else if t < 2 then osculating4P1 t else 0

def osculating6Kernel (t : ℝ) : ℝ :=
  if t < 1 then osculating6P0 t else if t < 2 then osculating6P1 t
  else if t < 3 then osculating6P2 t else 0

def hermite4Kernel (t : ℝ) : ℝ :=
  if 0 ≤ t ∧ t < 1 then hermite4P0 t else if 1 ≤ t ∧ t < 2 then hermite4P1 t else 0

def hermite6_3Kernel (t : ℝ) : ℝ :=
  if 0 ≤ t ∧ t < 1 then hermite6_3P0 t else if 1 ≤ t ∧ t < 2 then hermite6_3P1 t
  else if 2 ≤ t ∧ t < 3 then hermite6_3P2 t else 0

def hermite6_5Kernel (t : ℝ) : ℝ :=
  if 0 ≤ t ∧ t < 1 then hermite6_5P0 t else if 1 ≤ t ∧ t < 2 then hermite6_5P1 t
  else if 2 ≤ t ∧ t < 3 then hermite6_5P2 t else 0

def bezierKernel (t : ℝ) : ℝ :=
  if 0 ≤ t ∧ t < 1 then bezierP0 t else if 1 ≤ t ∧ t < 2 then bezierP1 t else 0

def lanczos2Kernel (t : ℝ) : ℝ :=
  if t < 1e-10 then 1
  else if t < 2 then
    (Real.sin (Real.pi * t) / (Real.pi * t)) *
      (Real.sin (Real.pi * t / 2) / (Real.pi * t / 2))
  else 0

def lanczos3Kernel (t : ℝ) : ℝ :=
  if t < 1e-10 then 1
  else if t < 3 then
    (Real.sin (Real.pi * t) / (Real.pi * t)) *
      (Real.sin (Real.pi * t / 3) / (Real.pi * t / 3))
  else 0

/-- Standalone Go function `hermite4Impulse`: `absX := math.Abs(x)` followed
by exactly the branch chain of `hermite4Kernel`. -/
def hermite4Impulse (x : ℝ) : ℝ := hermite4Kernel |x|

/-! ### Windowed convolution loops -/

/-- Window loop of the bspline/lagrange/watte/parabolic/osculating routines:
`for j := lo; j <= hi; j++ { if j < 0 || j >= len(in) { continue }; sum += in[j] * ker(|pos - j|) }`.
Out-of-range window indices are skipped, contributing zero. -/
def skipWindowSum (l : List ℝ) (pos : ℝ) (lo hi : ℤ) (ker : ℝ → ℝ) : ℝ :=
  ((List.range (hi - lo + 1).toNat).map (fun (k : ℕ) =>
    let j : ℤ := lo + k
    if j < 0 ∨ (l.length : ℤ) ≤ j then 0
    else l.getD j.toNat 0 * ker |pos - (j : ℝ)|)).sum

/-- Window loop of the hermite/lanczos/bezier routines:
`idx := j; if idx < 0 { idx = 0 } else if idx > lastIdx { idx = lastIdx }; sum += in[idx] * ker(|pos - j|)`.
Out-of-range window indices are clamped to the nearest valid index, so the
boundary sample is reused, while the distance still uses the raw `j`. -/
def clampWindowSum (l : List ℝ) (pos : ℝ) (lo hi : ℤ) (ker : ℝ → ℝ) : ℝ :=
  ((List.range (hi - lo + 1).toNat).map (fun (k : ℕ) =>
    let j : ℤ := lo + k
    let idx : ℤ := if j < 0 then 0 else if (l.length : ℤ) - 1 < j then (l.length : ℤ) - 1 else j
    l.getD idx.toNat 0 * ker |pos - (j : ℝ)|)).sum

/-! ### Interpolation routines

Each routine mirrors its Go counterpart: empty-input branch, single-element
branch (fill the output with `in[0]`), then one output sample per index
`i < outSamples` at position `pos = i * ratio`. -/

/-- Go `linearInterpolate`. -/
def linearInterpolate (l : List ℝ) (m : ℕ) : List ℝ :=
  if l.length = 0 then []
  else if l.length = 1 then List.replicate m (l.getD 0 0)
  else
    (List.range m).map (fun (i : ℕ) =>
      let pos := (i : ℝ) * ratioFor l.length m
      let idx0 : ℤ := ⌊pos⌋
      if (l.length : ℤ) - 1 ≤ idx0 then l.getD (l.length - 1) 0
      else
        let frac := pos - (idx0 : ℝ)
        l.getD idx0.toNat 0 * (1 - frac) + l.getD (idx0.toNat + 1) 0 * frac)

/-- Go `dropSampleInterpolate`. -/
def dropSampleInterpolate (l : List ℝ) (m : ℕ) : List ℝ :=
  if l.length = 0 then []
  else if l.length = 1 then List.replicate m (l.getD 0 0)
  else
    (List.range m).map (fun (i : ℕ) =>
      let pos := (i : ℝ) * ratioFor l.length m
      let idx : ℤ := ⌊pos + 1/2⌋
      let idx2 : ℤ := if (l.length : ℤ) ≤ idx then (l.length : ℤ) - 1 else idx
      l.getD idx2.toNat 0)

/-- Go `bspline3Interpolate` (support ±2, window `centerIdx-1 .. centerIdx+2`,
out-of-range indices skipped). -/
def bspline3Interpolate (l : List ℝ) (m : ℕ) : List ℝ :=
  if l.length = 0 then []
  else if l.length = 1 then List.replicate m (l.getD 0 0)
  else
    (List.range m).map (fun (i : ℕ) =>
      let pos := (i : ℝ) * ratioFor l.length m
      let c : ℤ := ⌊pos + 1/2⌋
      skipWindowSum l pos (c - 1) (c + 2) bspline3Kernel)

/-- Go `bspline5Interpolate` (support ±3, window `centerIdx-2 .. centerIdx+3`). -/
def bspline5Interpolate (l : List ℝ) (m : ℕ) : List ℝ :=
  if l.length = 0 then []
  else if l.length = 1 then List.replicate m (l.getD 0 0)
  else
    (List.range m).map (fun (i : ℕ) =>
      let pos := (i : ℝ) * ratioFor l.length m
      let c : ℤ := ⌊pos + 1/2⌋
      skipWindowSum l pos (c - 2) (c + 3) bspline5Kernel)

/-- Go `lagrange4Interpolate`. -/
def lagrange4Interpolate (l : List ℝ) (m : ℕ) : List ℝ :=
  if l.length = 0 then []
  else if l.length = 1 then List.replicate m (l.getD 0 0)
  else
    (List.range m).map (fun (i : ℕ) =>
      let pos := (i : ℝ) * ratioFor l.length m
      let c : ℤ := ⌊pos + 1/2⌋
      skipWindowSum l pos (c - 1) (c + 2) lagrange4Kernel)

/-- Go `lagrange6Interpolate`. -/
def lagrange6Interpolate (l : List ℝ) (m : ℕ) : List ℝ :=
  if l.length = 0 then []
  else if l.length = 1 then List.replicate m (l.getD 0 0)
  else
    (List.range m).map (fun (i : ℕ) =>
      let pos := (i : ℝ) * ratioFor l.length m
      let c : ℤ := ⌊pos + 1/2⌋
      skipWindowSum l pos (c - 2) (c + 3) lagrange6Kernel)

/-- Go `watteInterpolate`. -/
def watteInterpolate (l : List ℝ) (m : ℕ) : List ℝ :=
  if l.length = 0 then []
  else if l.length = 1 then List.replicate m (l.getD 0 0)
  else
    (List.range m).map (fun (i : ℕ) =>
      let pos := (i : ℝ) * ratioFor l.length m
      let c : ℤ := ⌊pos + 1/2⌋
      skipWindowSum l pos (c - 1) (c + 2) watteKernel)

/-- Go `parabolic2xInterpolate`. -/
def parabolic2xInterpolate (l : List ℝ) (m : ℕ) : List ℝ :=
  if l.length = 0 then []
  else if l.length = 1 then List.replicate m (l.getD 0 0)
  else
    (List.range m).map (fun (i : ℕ) =>
      let pos := (i : ℝ) * ratioFor l.length m
      let c : ℤ := ⌊pos + 1/2⌋
      skipWindowSum l pos (c - 1) (c + 2) parabolic2xKernel)

/-- Go `osculating4Interpolate`. -/
def osculating4Interpolate (l : List ℝ) (m : ℕ) : List ℝ :=
  if l.length = 0 then []
  else if l.length = 1 then List.replicate m (l.getD 0 0)
  else
    (List.range m).map (fun (i : ℕ) =>
      let pos := (i : ℝ) * ratioFor l.length m
      let c : ℤ := ⌊pos + 1/2⌋
      skipWindowSum l pos (c - 1) (c + 2) osculating4Kernel)

/-- Go `osculating6Interpolate`. -/
def osculating6Interpolate (l : List ℝ) (m : ℕ) : List ℝ :=
  if l.length = 0 then []
  else if l.length = 1 then List.replicate m (l.getD 0 0)
  else
    (List.range m).map (fun (i : ℕ) =>
      let pos := (i : ℝ) * ratioFor l.length m
      let c : ℤ := ⌊pos + 1/2⌋
      skipWindowSum l pos (c - 2) (c + 3) osculating6Kernel)

/-- Go `hermite4Interpolate`.  Note the two divergences from the routines
above, both taken verbatim from the source: `out := make([]float64, outSamples)`
happens before the `len(in) == 0` check (so empty input yields `outSamples`
zeros), and the ratio is the unguarded `ratioUnguarded` (so `outSamples = 1`
yields non-finite positions, hence all-zero samples — see the module
comment). -/
def hermite4Interpolate (l : List ℝ) (m : ℕ) : List ℝ :=
  if l.length = 0 then List.replicate m 0
  else if l.length = 1 then List.replicate m (l.getD 0 0)
  else
    (List.range m).map (fun (i : ℕ) =>
      match ratioUnguarded l.length m with
      | Option.none => 0
      | Option.some r =>
        let pos := (i : ℝ) * r
        let c : ℤ := ⌊pos + 1/2⌋
        clampWindowSum l pos (c - 1) (c + 2) hermite4Kernel)

/-- Go `hermite6_3Interpolate` (same structure as `hermite4Interpolate`,
support ±3). -/
def hermite6_3Interpolate (l : List ℝ) (m : ℕ) : List ℝ :=
  if l.length = 0 then List.replicate m 0
  else if l.length = 1 then List.replicate m (l.getD 0 0)
  else
    (List.range m).map (fun (i : ℕ) =>
      match ratioUnguarded l.length m with
      | Option.none => 0
      | Option.some r =>
        let pos := (i : ℝ) * r
        let c : ℤ := ⌊pos + 1/2⌋
        clampWindowSum l pos (c - 2) (c + 3) hermite6_3Kernel)

/-- Go `hermite6_5Interpolate`. -/
def hermite6_5Interpolate (l : List ℝ) (m : ℕ) : List ℝ :=
  if l.length = 0 then List.replicate m 0
  else if l.length = 1 then List.replicate m (l.getD 0 0)
  else
    (List.range m).map (fun (i : ℕ) =>
      match ratioUnguarded l.length m with
      | Option.none => 0
      | Option.some r =>
        let pos := (i : ℝ) * r
        let c : ℤ := ⌊pos + 1/2⌋
        clampWindowSum l pos (c - 2) (c + 3) hermite6_5Kernel)

/-- Go `lanczos2Interpolate`. -/
def lanczos2Interpolate (l : List ℝ) (m : ℕ) : List ℝ :=
  if l.length = 0 then List.replicate m 0
  else if l.length = 1 then List.replicate m (l.getD 0 0)
  else
    (List.range m).map (fun (i : ℕ) =>
      match ratioUnguarded l.length m with
      | Option.none => 0
      | Option.some r =>
        let pos := (i : ℝ) * r
        let c : ℤ := ⌊pos + 1/2⌋
        clampWindowSum l pos (c - 1) (c + 2) lanczos2Kernel)

/-- Go `lanczos3Interpolate`. -/
def lanczos3Interpolate (l : List ℝ) (m : ℕ) : List ℝ :=
  if l.length = 0 then List.replicate m 0
  else if l.length = 1 then List.replicate m (l.getD 0 0)
  else
    (List.range m).map (fun (i : ℕ) =>
      match ratioUnguarded l.length m with
      | Option.none => 0
      | Option.some r =>
        let pos := (i : ℝ) * r
        let c : ℤ := ⌊pos + 1/2⌋
        clampWindowSum l pos (c - 2) (c + 3) lanczos3Kernel)

/-- Go `bezierInterpolate`. -/
def bezierInterpolate (l : List ℝ) (m : ℕ) : List ℝ :=
  if l.length = 0 then List.replicate m 0
  else if l.length = 1 then List.replicate m (l.getD 0 0)
  else
    (List.range m).map (fun (i : ℕ) =>
      match ratioUnguarded l.length m with
      | Option.none => 0
      | Option.some r =>
        let pos := (i : ℝ) * r
        let c : ℤ := ⌊pos + 1/2⌋
        clampWindowSum l pos (c - 1) (c + 2) bezierKernel)

/-! ### Spline solvers -/

/-- Go `cubicSplineCoefficients`: natural-cubic-spline coefficients `(a,b,c,d)`
from knots `x` and values `y`.  `n := len(x) - 1`; `h`, `alpha` have length
`n`; the forward sweep fills `l`, `mu`, `z` (length `n+1`, `l[0] = 1`, the
rest initialised to 0 by `make`); the backward sweep fills `c` (length
`n+1`, `c[n] = 0`) and then `a`, `b`, `d` (length `n`).  `b` and `d` at
index `j` depend only on `c[j]` and `c[j+1]`, so computing them after the
whole `c` sweep is the same as Go's computing them inside it. -/
def cubicSplineCoefficients (x y : List ℝ) :
    List ℝ × List ℝ × List ℝ × List ℝ :=
  let n := x.length - 1
  let h := (List.range n).map (fun i => x.getD (i+1) 0 - x.getD i 0)
  let alpha := (List.range n).map (fun i =>
    if i = 0 then 0
    else (3 / h.getD i 0) * (y.getD (i+1) 0 - y.getD i 0)
      - (3 / h.getD (i-1) 0) * (y.getD i 0 - y.getD (i-1) 0))
  let fwd := (List.range (n-1)).foldl
    (fun (st : List ℝ × List ℝ × List ℝ) k =>
      let i := k + 1
      let li := 2 * (x.getD (i+1) 0 - x.getD (i-1) 0) - h.getD (i-1) 0 * st.2.1.getD (i-1) 0
      let mui := h.getD i 0 / li
      let zi := (alpha.getD i 0 - h.getD (i-1) 0 * st.2.2.getD (i-1) 0) / li
      (st.1.set i li, st.2.1.set i mui, st.2.2.set i zi))
    ((List.replicate (n+1) 0).set 0 1, List.replicate (n+1) 0, List.replicate (n+1) 0)
  let cL := (List.range n).foldl
    (fun (cl : List ℝ) k =>
      let j := n - 1 - k
      cl.set j (fwd.2.2.getD j 0 - fwd.2.1.getD j 0 * cl.getD (j+1) 0))
    (List.replicate (n+1) 0)
  let aL := (List.range n).map (fun j => y.getD j 0)
  let bL := (List.range n).map (fun j =>
    (y.getD (j+1) 0 - y.getD j 0) / h.getD j 0
      - h.getD j 0 * (cL.getD (j+1) 0 + 2 * cL.getD j 0) / 3)
  let dL := (List.range n).map (fun j => (cL.getD (j+1) 0 - cL.getD j 0) / (3 * h.getD j 0))
  (aL, bL, cL, dL)

/-- Go `applyCubicSpline`.  The segment index `j := int(pos)` is clamped to
`[0, len(in)-2]` before the coefficient reads. -/
def applyCubicSpline (l : List ℝ) (m : ℕ) : List ℝ :=
  if l.length = 0 then []
  else if l.length = 1 then List.replicate m (l.getD 0 0)
  else
    let x := (List.range l.length).map (fun (i : ℕ) => (i : ℝ))
    let co := cubicSplineCoefficients x l
    (List.range m).map (fun (i : ℕ) =>
      let pos := (i : ℝ) * ratioFor l.length m
      let j0 : ℤ := ⌊pos⌋
      let j1 : ℤ := if (l.length : ℤ) - 1 ≤ j0 then (l.length : ℤ) - 2 else j0
      let j : ℤ := if j1 < 0 then 0 else j1
      let dx := pos - (j : ℝ)
      co.1.getD j.toNat 0 + co.2.1.getD j.toNat 0 * dx
        + co.2.2.1.getD j.toNat 0 * (dx * dx) + co.2.2.2.getD j.toNat 0 * (dx * dx * dx))

/-- Go `monotonicCubicSlopes`: Fritsch–Carlson tangents.  Secant slopes
`delta` (length `n-1`), initial tangents `m` (`m[0] = delta[0]`, interior
`m[i] = 0` if adjacent secants have opposite signs else their average,
`m[n-1] = delta[n-2]`), then the sequential rescaling pass over segments
`i = 0 .. n-2` mutating `m[i]` and `m[i+1]`, embedded as a left fold over
the segment indices.  Only called with `len(x) = len(y) ≥ 2`. -/
def monotonicCubicSlopes (x y : List ℝ) : List ℝ :=
  let n := x.length
  let delta := (List.range (n-1)).map (fun i =>
    (y.getD (i+1) 0 - y.getD i 0) / (x.getD (i+1) 0 - x.getD i 0))
  let m0 : List ℝ := (List.range n).map (fun i =>
    if i = 0 then delta.getD 0 0
    else if i = n - 1 then delta.getD (n-2) 0
    else if delta.getD (i-1) 0 * delta.getD i 0 ≤ 0 then 0
    else (delta.getD (i-1) 0 + delta.getD i 0) / 2)
  (List.range (n-1)).foldl
    (fun (ms : List ℝ) i =>
      if |delta.getD i 0| < 1e-10 then (ms.set i 0).set (i+1) 0
      else
        let a := ms.getD i 0 / delta.getD i 0
        let b := ms.getD (i+1) 0 / delta.getD i 0
        if a * a + b * b > 3 * 3 then
          let t := 3 / Real.sqrt (a * a + b * b)
          (ms.set i (t * a * delta.getD i 0)).set (i+1) (t * b * delta.getD i 0)
        else ms)
    m0

/-- Go `applyMonotonicCubic`: knots `x[i] = i`, Fritsch–Carlson tangents,
then one cubic Hermite evaluation per output sample over the clamped
segment `j`. -/
def applyMonotonicCubic (l : List ℝ) (m : ℕ) : List ℝ :=
  if l.length = 0 then []
  else if l.length = 1 then List.replicate m (l.getD 0 0)
  else
    let x := (List.range l.length).map (fun (i : ℕ) => (i : ℝ))
    let ms := monotonicCubicSlopes x l
    (List.range m).map (fun (i : ℕ) =>
      let pos := (i : ℝ) * ratioFor l.length m
      let j0 : ℤ := ⌊pos⌋
      let j1 : ℤ := if (l.length : ℤ) - 1 ≤ j0 then (l.length : ℤ) - 2 else j0
      let j : ℤ := if j1 < 0 then 0 else j1
      let h := x.getD (j.toNat + 1) 0 - x.getD j.toNat 0
      let t := (pos - x.getD j.toNat 0) / h
      let t2 := t * t
      let t3 := t2 * t
      let h00 := 2*t3 - 3*t2 + 1
      let h10 := t3 - 2*t2 + t
      let h01 := -2*t3 + 3*t2
      let h11 := t3 - t2
      h00 * l.getD j.toNat 0 + h10 * h * ms.getD j.toNat 0
        + h01 * l.getD (j.toNat + 1) 0 + h11 * h * ms.getD (j.toNat + 1) 0)

/-- Go `akimaSlopes`.  For `n < 3` fall back to secant slopes with the last
tangent copied; otherwise build the extended secant array `s` (length
`n+3`, two extrapolated virtual slopes at each end) and take the weighted
averages.  Only called with `len(x) = len(y) ≥ 2`. -/
def akimaSlopes (x y : List ℝ) : List ℝ :=
  let n := x.length
  if n < 3 then
    let mfall := (List.range n).map (fun i =>
      if i + 1 < n then (y.getD (i+1) 0 - y.getD i 0) / (x.getD (i+1) 0 - x.getD i 0) else 0)
    mfall.set (n-1) (mfall.getD (n-2) 0)
  else
    let s0 := (List.range (n-1)).foldl
      (fun (sl : List ℝ) i =>
        sl.set (i+2) ((y.getD (i+1) 0 - y.getD i 0) / (x.getD (i+1) 0 - x.getD i 0)))
      (List.replicate (n+3) 0)
    let s1 := s0.set 1 (2 * s0.getD 2 0 - s0.getD 3 0)
    let s2 := s1.set 0 (2 * s1.getD 1 0 - s1.getD 2 0)
    let s3 := s2.set (n+1) (2 * s2.getD n 0 - s2.getD (n-1) 0)
    let s := s3.set (n+2) (2 * s3.getD (n+1) 0 - s3.getD n 0)
    (List.range n).map (fun i =>
      let w1 := |s.getD (i+3) 0 - s.getD (i+2) 0|
      let w2 := |s.getD (i+1) 0 - s.getD i 0|
      if w1 + w2 < 1e-10 then (s.getD (i+1) 0 + s.getD (i+2) 0) / 2
      else (w1 * s.getD (i+1) 0 + w2 * s.getD (i+2) 0) / (w1 + w2))

/-- Go `applyAkimaSpline`: identical evaluation loop to `applyMonotonicCubic`
but with the Akima tangents. -/
def applyAkimaSpline (l : List ℝ) (m : ℕ) : List ℝ :=
  if l.length = 0 then []
  else if l.length = 1 then List.replicate m (l.getD 0 0)
  else
    let x := (List.range l.length).map (fun (i : ℕ) => (i : ℝ))
    let ms := akimaSlopes x l
    (List.range m).map (fun (i : ℕ) =>
      let pos := (i : ℝ) * ratioFor l.length m
      let j0 : ℤ := ⌊pos⌋
      let j1 : ℤ := if (l.length : ℤ) - 1 ≤ j0 then (l.length : ℤ) - 2 else j0
      let j : ℤ := if j1 < 0 then 0 else j1
      let h := x.getD (j.toNat + 1) 0 - x.getD j.toNat 0
      let t := (pos - x.getD j.toNat 0) / h
      let t2 := t * t
      let t3 := t2 * t
      let h00 := 2*t3 - 3*t2 + 1
      let h10 := t3 - 2*t2 + t
      let h01 := -2*t3 + 3*t2
      let h11 := t3 - t2
      h00 * l.getD j.toNat 0 + h10 * h * ms.getD j.toNat 0
        + h01 * l.getD (j.toNat + 1) 0 + h11 * h * ms.getD (j.toNat + 1) 0)

/-! ### Dispatch layer and integer adapter -/

/-- Go `Interpolate`: dispatch on the selector.  The `error` result, `nil` on
every path, is modelled as `Option Unit` (`Option.none` = `nil`).  The `None`
case and the `default` case both return `out := make(...); copy(out, in)`,
a fresh list element-wise equal to the input, i.e. the same list value. -/
def Interpolate (l : List ℝ) (m : ℕ) (k : ℤ) : List ℝ × Option Unit :=
  if k = None then (l, Option.none)
  else if k = DropSample then (dropSampleInterpolate l m, Option.none)
  else if k = Linear then (linearInterpolate l m, Option.none)
  else if k = BSpline3 then (bspline3Interpolate l m, Option.none)
  else if k = BSpline5 then (bspline5Interpolate l m, Option.none)
  else if k = Lagrange4 then (lagrange4Interpolate l m, Option.none)
  else if k = Lagrange6 then (lagrange6Interpolate l m, Option.none)
  else if k = Watte then (watteInterpolate l m, Option.none)
  else if k = Parabolic2x then (parabolic2xInterpolate l m, Option.none)
  else if k = Osculating4 then (osculating4Interpolate l m, Option.none)
  else if k = Osculating6 then (osculating6Interpolate l m, Option.none)
  else if k = Hermite4 then (hermite4Interpolate l m, Option.none)
  else if k = Hermite6_3 then (hermite6_3Interpolate l m, Option.none)
  else if k = Hermite6_5 then (hermite6_5Interpolate l m, Option.none)
  else if k = CubicSpline then (applyCubicSpline l m, Option.none)
  else if k = MonotonicCubic then (applyMonotonicCubic l m, Option.none)
  else if k = Lanczos2 then (lanczos2Interpolate l m, Option.none)
  else if k = Lanczos3 then (lanczos3Interpolate l m, Option.none)
  else if k = Bezier then (bezierInterpolate l m, Option.none)
  else if k = Akima then (applyAkimaSpline l m, Option.none)
  else (l, Option.none)

/-- Go rounding in `InterpolateInt`:
`if v >= 0 { int(v + 0.5) } else { int(v - 0.5) }`; Go's `int()` truncates
toward zero, so this is `⌊v + 1/2⌋` for `v ≥ 0` and `⌈v - 1/2⌉` for `v < 0`
(round half away from zero). -/
def roundHalfAway (v : ℝ) : ℤ := if 0 ≤ v then ⌊v + 1/2⌋ else ⌈v - 1/2⌉

/-- Go `InterpolateInt`: empty input short-circuits to an empty output
without calling `Interpolate`; otherwise convert to reals once, delegate,
propagate a non-nil error as `(nil, err)`, else round every output. -/
def InterpolateInt (l : List ℤ) (m : ℕ) (k : ℤ) : List ℤ × Option Unit :=
  if l.length = 0 then ([], Option.none)
  else
    let res := Interpolate (l.map (fun v => (v : ℝ))) m k
    match res.2 with
    | Option.some e => ([], Option.some e)
    | Option.none => (res.1.map roundHalfAway, Option.none)

/-! ### List access helper lemmas -/

theorem getD_map_range {n : ℕ} (f : ℕ → ℝ) {i : ℕ} (h : i < n) :
    ((List.range n).map f).getD i 0 = f i := by
  rw [List.getD_eq_getElem?_getD, List.getElem?_map, List.getElem?_range h]
  rfl

theorem getD_set_ne (l : List ℝ) {i j : ℕ} (a : ℝ) (h : i ≠ j) :
    (l.set i a).getD j 0 = l.getD j 0 := by
  rw [List.getD_eq_getElem?_getD, List.getElem?_set_ne h, ← List.getD_eq_getElem?_getD]

theorem getD_set_self (l : List ℝ) {i : ℕ} (a : ℝ) (h : i < l.length) :
    (l.set i a).getD i 0 = a := by
  rw [List.getD_eq_getElem?_getD, List.getElem?_set_self h]
  rfl

/-! ### Selector bookkeeping -/

/-- The 19 recognized non-`None` selector values. -/
def nonNoneSelectors : List ℤ :=
  [DropSample, Linear, BSpline3, BSpline5, Lagrange4, Lagrange6, Watte, Parabolic2x,
   Osculating4, Osculating6, Hermite4, Hermite6_3, Hermite6_5, CubicSpline,
   MonotonicCubic, Lanczos2, Lanczos3, Bezier, Akima]

/-! ### Per-routine length and single-element facts -/

theorem dropSampleInterpolate_length (l : List ℝ) (m : ℕ) (h : l ≠ []) :
    (dropSampleInterpolate l m).length = m := by
  unfold dropSampleInterpolate
  rw [if_neg (by simpa using h)]
  split_ifs <;> first
  | rw [List.length_replicate]
  | rw [List.length_map, List.length_range]

theorem linearInterpolate_length (l : List ℝ) (m : ℕ) (h : l ≠ []) :
    (linearInterpolate l m).length = m := by
  unfold linearInterpolate
  rw [if_neg (by simpa using h)]
  split_ifs <;> first
  | rw [List.length_replicate]
  | rw [List.length_map, List.length_range]

theorem bspline3Interpolate_length (l : List ℝ) (m : ℕ) (h : l ≠ []) :
    (bspline3Interpolate l m).length = m := by
  unfold bspline3Interpolate
  rw [if_neg (by simpa using h)]
  split_ifs <;> first
  | rw [List.length_replicate]
  | rw [List.length_map, List.length_range]

theorem bspline5Interpolate_length (l : List ℝ) (m : ℕ) (h : l ≠ []) :
    (bspline5Interpolate l m).length = m := by
  unfold bspline5Interpolate
  rw [if_neg (by simpa using h)]
  split_ifs <;> first
  | rw [List.length_replicate]
  | rw [List.length_map, List.length_range]

theorem lagrange4Interpolate_length (l : List ℝ) (m : ℕ) (h : l ≠ []) :
    (lagrange4Interpolate l m).length = m := by
  unfold lagrange4Interpolate
  rw [if_neg (by simpa using h)]
  split_ifs <;> first
  | rw [List.length_replicate]
  | rw [List.length_map, List.length_range]

theorem lagrange6Interpolate_length (l : List ℝ) (m : ℕ) (h : l ≠ []) :
    (lagrange6Interpolate l m).length = m := by
  unfold lagrange6Interpolate
  rw [if_neg (by simpa using h)]
  split_ifs <;> first
  | rw [List.length_replicate]
  | rw [List.length_map, List.length_range]

theorem watteInterpolate_length (l : List ℝ) (m : ℕ) (h : l ≠ []) :
    (watteInterpolate l m).length = m := by
  unfold watteInterpolate
  rw [if_neg (by simpa using h)]
  split_ifs <;> first
  | rw [List.length_replicate]
  | rw [List.length_map, List.length_range]

theorem parabolic2xInterpolate_length (l : List ℝ) (m : ℕ) (h : l ≠ []) :
    (parabolic2xInterpolate l m).length = m := by
  unfold parabolic2xInterpolate
  rw [if_neg (by simpa using h)]
  split_ifs <;> first
  | rw [List.length_replicate]
  | rw [List.length_map, List.length_range]

theorem osculating4Interpolate_length (l : List ℝ) (m : ℕ) (h : l ≠ []) :
    (osculating4Interpolate l m).length = m := by
  unfold osculating4Interpolate
  rw [if_neg (by simpa using h)]
  split_ifs <;> first
  | rw [List.length_replicate]
  | rw [List.length_map, List.length_range]

theorem osculating6Interpolate_length (l : List ℝ) (m : ℕ) (h : l ≠ []) :
    (osculating6Interpolate l m).length = m := by
  unfold osculating6Interpolate
  rw [if_neg (by simpa using h)]
  split_ifs <;> first
  | rw [List.length_replicate]
  | rw [List.length_map, List.length_range]

theorem hermite4Interpolate_length (l : List ℝ) (m : ℕ) :
    (hermite4Interpolate l m).length = m := by
  unfold hermite4Interpolate
  split_ifs <;> first
  | rw [List.length_replicate]
  | rw [List.length_map, List.length_range]

theorem hermite6_3Interpolate_length (l : List ℝ) (m : ℕ) :
    (hermite6_3Interpolate l m).length = m := by
  unfold hermite6_3Interpolate
  split_ifs <;> first
  | rw [List.length_replicate]
  | rw [List.length_map, List.length_range]

theorem hermite6_5Interpolate_length (l : List ℝ) (m : ℕ) :
    (hermite6_5Interpolate l m).length = m := by
  unfold hermite6_5Interpolate
  split_ifs <;> first
  | rw [List.length_replicate]
  | rw [List.length_map, List.length_range]

theorem lanczos2Interpolate_length (l : List ℝ) (m : ℕ) :
    (lanczos2Interpolate l m).length = m := by
  unfold lanczos2Interpolate
  split_ifs <;> first
  | rw [List.length_replicate]
  | rw [List.length_map, List.length_range]

theorem lanczos3Interpolate_length (l : List ℝ) (m : ℕ) :
    (lanczos3Interpolate l m).length = m := by
  unfold lanczos3Interpolate
  split_ifs <;> first
  | rw [List.length_replicate]
  | rw [List.length_map, List.length_range]

theorem bezierInterpolate_length (l : List ℝ) (m : ℕ) :
    (bezierInterpolate l m).length = m := by
  unfold bezierInterpolate
  split_ifs <;> first
  | rw [List.length_replicate]
  | rw [List.length_map, List.length_range]

theorem applyCubicSpline_length (l : List ℝ) (m : ℕ) (h : l ≠ []) :
    (applyCubicSpline l m).length = m := by
  unfold applyCubicSpline
  rw [if_neg (by simpa using h)]
  split_ifs <;> first
  | rw [List.length_replicate]
  | rw [List.length_map, List.length_range]

theorem applyMonotonicCubic_length (l : List ℝ) (m : ℕ) (h : l ≠ []) :
    (applyMonotonicCubic l m).length = m := by
  unfold applyMonotonicCubic
  rw [if_neg (by simpa using h)]
  split_ifs <;> first
  | rw [List.length_replicate]
  | rw [List.length_map, List.length_range]

theorem applyAkimaSpline_length (l : List ℝ) (m : ℕ) (h : l ≠ []) :
    (applyAkimaSpline l m).length = m := by
  unfold applyAkimaSpline
  rw [if_neg (by simpa using h)]
  split_ifs <;> first
  | rw [List.length_replicate]
  | rw [List.length_map, List.length_range]

/-- Shared helper: the dispatcher's error result is `nil` on every path. -/
theorem interpolate_err_eq_none (l : List ℝ) (m : ℕ) (k : ℤ) :
    (Interpolate l m k).2 = Option.none := by
  unfold Interpolate
  simp only [apply_ite (Prod.snd), ite_self]

/-- Shared helper: an unrecognized selector (outside `[0, 19]`) falls to the
`default` case, a copy of the input. -/
theorem interpolate_unrecognized (l : List ℝ) (m : ℕ) (k : ℤ) (hk : k < 0 ∨ 19 < k) :
    Interpolate l m k = (l, Option.none) := by
  unfold Interpolate
  simp only [None, DropSample, Linear, BSpline3, BSpline5, Lagrange4, Lagrange6, Watte,
    Parabolic2x, Osculating4, Osculating6, Hermite4, Hermite6_3, Hermite6_5, CubicSpline,
    MonotonicCubic, Lanczos2, Lanczos3, Bezier, Akima]
  have hne : ∀ j : ℤ, 0 ≤ j → j ≤ 19 → ¬k = j := by omega
  rw [if_neg (hne 0 (by norm_num) (by norm_num)), if_neg (hne 1 (by norm_num) (by norm_num)),
    if_neg (hne 2 (by norm_num) (by norm_num)), if_neg (hne 3 (by norm_num) (by norm_num)),
    if_neg (hne 4 (by norm_num) (by norm_num)), if_neg (hne 5 (by norm_num) (by norm_num)),
    if_neg (hne 6 (by norm_num) (by norm_num)), if_neg (hne 7 (by norm_num) (by norm_num)),
    if_neg (hne 8 (by norm_num) (by norm_num)), if_neg (hne 9 (by norm_num) (by norm_num)),
    if_neg (hne 10 (by norm_num) (by norm_num)), if_neg (hne 11 (by norm_num) (by norm_num)),
    if_neg (hne 12 (by norm_num) (by norm_num)), if_neg (hne 13 (by norm_num) (by norm_num)),
    if_neg (hne 14 (by norm_num) (by norm_num)), if_neg (hne 15 (by norm_num) (by norm_num)),
    if_neg (hne 16 (by norm_num) (by norm_num)), if_neg (hne 17 (by norm_num) (by norm_num)),
    if_neg (hne 18 (by norm_num) (by norm_num)), if_neg (hne 19 (by norm_num) (by norm_num))]

/-- C4: `Interpolate` reports no failure for any selector value, and both the
`None` selector and any unrecognized selector value return an element-wise
copy of the input (length `len(in)`), ignoring the requested output count. -/
theorem interpolate_never_fails_and_none_is_identity (l : List ℝ) (m : ℕ) (k : ℤ) :
    (Interpolate l m k).2 = Option.none ∧
      ((k = None ∨ k < 0 ∨ 19 < k) →
        (Interpolate l m k).1 = l ∧ ((Interpolate l m k).1).length = l.length) := by
  refine ⟨interpolate_err_eq_none l m k, fun hk => ?_⟩
  rcases hk with rfl | hk
  · exact ⟨rfl, rfl⟩
  · rw [interpolate_unrecognized l m k hk]
    exact ⟨rfl, rfl⟩

/-- Witness for C4 at the concrete input `[1, 2]`, count `5`, the
unrecognized selector `25`. -/
theorem interpolate_never_fails_and_none_is_identity_witness :
    (Interpolate [(1:ℝ), 2] 5 25).2 = Option.none ∧
      (Interpolate [(1:ℝ), 2] 5 25).1 = [1, 2] := by
  obtain ⟨h1, h2⟩ := interpolate_never_fails_and_none_is_identity [(1:ℝ), 2] 5 25
  exact ⟨h1, (h2 (Or.inr (by norm_num))).1⟩

/-- C5: for every recognized non-`None` selector, non-empty input and
requested count `m ≥ 1`, the output length is exactly `m`. -/
theorem interpolate_length_contract (l : List ℝ) (m : ℕ) (k : ℤ)
    (hk : k ∈ nonNoneSelectors) (hl : l ≠ []) (_hm : 1 ≤ m) :
    ((Interpolate l m k).1).length = m := by
  simp only [nonNoneSelectors, List.mem_cons, List.not_mem_nil, or_false] at hk
  rcases hk with rfl|rfl|rfl|rfl|rfl|rfl|rfl|rfl|rfl|rfl|rfl|rfl|rfl|rfl|rfl|rfl|rfl|rfl|rfl
  · exact dropSampleInterpolate_length l m hl
  · exact linearInterpolate_length l m hl
  · exact bspline3Interpolate_length l m hl
  · exact bspline5Interpolate_length l m hl
  · exact lagrange4Interpolate_length l m hl
  · exact lagrange6Interpolate_length l m hl
  · exact watteInterpolate_length l m hl
  · exact parabolic2xInterpolate_length l m hl
  · exact osculating4Interpolate_length l m hl
  · exact osculating6Interpolate_length l m hl
  · exact hermite4Interpolate_length l m
  · exact hermite6_3Interpolate_length l m
  · exact hermite6_5Interpolate_length l m
  · exact applyCubicSpline_length l m hl
  · exact applyMonotonicCubic_length l m hl
  · exact lanczos2Interpolate_length l m
  · exact lanczos3Interpolate_length l m
  · exact bezierInterpolate_length l m
  · exact applyAkimaSpline_length l m hl

/-- Witness for C5 at `[1, 2, 3]`, count `7`, selector `BSpline3`. -/
theorem interpolate_length_contract_witness :
    ((Interpolate [(1:ℝ), 2, 3] 7 BSpline3).1).length = 7 :=
  interpolate_length_contract [(1:ℝ), 2, 3] 7 BSpline3
    (by simp [nonNoneSelectors]) (by simp) (by norm_num)

/-- Counterexample to C6 as stated: with the `None` selector, a single-element
input is returned as-is (length 1), not repeated `outSamples` times. -/
theorem interpolate_single_element_none_cex :
    (Interpolate [(5:ℝ)] 3 None).1 ≠ [5, 5, 5] := by
  show ([(5:ℝ)]) ≠ [5, 5, 5]
  simp

/-- C6 (amended): for every recognized non-`None` selector, a single-element
input `[x]` yields `x` repeated `outSamples` times. -/
theorem interpolate_single_element (x : ℝ) (m : ℕ) (k : ℤ) (hk : k ∈ nonNoneSelectors) :
    (Interpolate [x] m k).1 = List.replicate m x := by
  simp only [nonNoneSelectors, List.mem_cons, List.not_mem_nil, or_false] at hk
  rcases hk with rfl|rfl|rfl|rfl|rfl|rfl|rfl|rfl|rfl|rfl|rfl|rfl|rfl|rfl|rfl|rfl|rfl|rfl|rfl <;>
    simp [dropSampleInterpolate, linearInterpolate, bspline3Interpolate, bspline5Interpolate,
      lagrange4Interpolate, lagrange6Interpolate, watteInterpolate, parabolic2xInterpolate,
      osculating4Interpolate, osculating6Interpolate, hermite4Interpolate, hermite6_3Interpolate,
      hermite6_5Interpolate, applyCubicSpline, applyMonotonicCubic, lanczos2Interpolate,
      lanczos3Interpolate, bezierInterpolate, applyAkimaSpline, Interpolate, None, DropSample,
      Linear, BSpline3, BSpline5, Lagrange4, Lagrange6, Watte, Parabolic2x, Osculating4,
      Osculating6, Hermite4, Hermite6_3, Hermite6_5, CubicSpline, MonotonicCubic, Lanczos2,
      Lanczos3, Bezier, Akima]

/-- Witness for C6 (amended) at `[5]`, count `3`, selector `Linear`:
`[5.0, 5.0, 5.0]`. -/
theorem interpolate_single_element_witness :
    (Interpolate [(5:ℝ)] 3 Linear).1 = [5, 5, 5] := by
  have h := interpolate_single_element (5:ℝ) 3 Linear (by simp [nonNoneSelectors])
  simpa [List.replicate] using h

/-- C1 (code divergence): `Interpolate` on the empty input with the `Hermite4`
selector and requested count 3 returns three zeros, not an empty sequence:
`out := make([]float64, outSamples)` is allocated and returned before the
`len(in) == 0` check. -/
theorem interpolate_empty_hermite4_eval :
    (Interpolate ([] : List ℝ) 3 Hermite4).1 = [0, 0, 0] := by
  show hermite4Interpolate [] 3 = [0, 0, 0]
  simp [hermite4Interpolate, List.replicate]

/-- C3 (code divergence): for `outSamples = 1` the `Hermite4` routine divides
by zero when computing the ratio (non-finite position, every weight 0), so
the single output sample is `0.0` instead of the input value at position 0;
the guarded `Linear` routine returns `in[0] = 10` as the claim describes.
`ratioUnguarded 2 1` is not the guarded `ratioFor 2 1`. -/
theorem interpolate_one_sample_hermite4_eval :
    (Interpolate [(10:ℝ), 20] 1 Hermite4).1 = [0] ∧
      (Interpolate [(10:ℝ), 20] 1 Linear).1 = [10] ∧
      ratioUnguarded 2 1 ≠ Option.some (ratioFor 2 1) := by
  refine ⟨?_, ?_, ?_⟩
  · show hermite4Interpolate [10, 20] 1 = [0]
    simp [hermite4Interpolate, ratioUnguarded, List.range_succ]
  · show linearInterpolate [10, 20] 1 = [10]
    simp [linearInterpolate, ratioFor, List.range_succ]
  · simp [ratioUnguarded]

/-- C9: `InterpolateInt` short-circuits the empty input to an empty output
without calling the dispatcher; otherwise it converts the input to reals,
delegates to `Interpolate`, and rounds every output half away from zero.
`roundHalfAway` is, definitionally, `⌊v + 1/2⌋` for `v ≥ 0` and `⌈v - 1/2⌉`
for `v < 0`. -/
theorem interpolateInt_delegates_and_rounds (l : List ℤ) (m : ℕ) (k : ℤ) :
    InterpolateInt l m k =
      (if l.length = 0 then ([], Option.none)
       else ((Interpolate (l.map (fun v => (v : ℝ))) m k).1.map roundHalfAway,
             Option.none)) ∧
      ∀ v : ℝ, roundHalfAway v = if 0 ≤ v then ⌊v + 1/2⌋ else ⌈v - 1/2⌉ := by
  refine ⟨?_, fun _ => rfl⟩
  unfold InterpolateInt
  split_ifs with h
  · rfl
  · simp only [interpolate_err_eq_none]

/-- Counterexample to C8 as stated: the two polynomial pieces of the Bezier
kernel disagree at the internal breakpoint (distance 1) by `1/8`, far beyond
the `1e-10` tolerance. -/
theorem bezier_pieces_discontinuous_cex :
    ¬ (|bezierP0 1 - bezierP1 1| ≤ 1e-10) := by
  norm_num [bezierP0, bezierP1]
  rw [abs_of_nonneg] <;> norm_num

/-- C8 (amended): every piecewise-polynomial impulse-response kernel except
Bezier has adjacent polynomial pieces agreeing (within `1e-10`; in fact
exactly) at each internal breakpoint, `BSpline3` at distance 0 is exactly
`2/3`, and the two Hermite4 pieces evaluate identically at distance 1. -/
theorem kernel_pieces_continuous :
    bspline3P0 0 = 2/3 ∧ hermite4P0 1 = hermite4P1 1 ∧
    |bspline3P0 1 - bspline3P1 1| ≤ 1e-10 ∧
    |bspline5P0 1 - bspline5P1 1| ≤ 1e-10 ∧ |bspline5P1 2 - bspline5P2 2| ≤ 1e-10 ∧
    |lagrange4P0 1 - lagrange4P1 1| ≤ 1e-10 ∧
    |lagrange6P0 1 - lagrange6P1 1| ≤ 1e-10 ∧ |lagrange6P1 2 - lagrange6P2 2| ≤ 1e-10 ∧
    |watteP0 1 - watteP1 1| ≤ 1e-10 ∧
    |parabolic2xP0 1 - parabolic2xP1 1| ≤ 1e-10 ∧
    |osculating4P0 1 - osculating4P1 1| ≤ 1e-10 ∧
    |osculating6P0 1 - osculating6P1 1| ≤ 1e-10 ∧ |osculating6P1 2 - osculating6P2 2| ≤ 1e-10 ∧
    |hermite4P0 1 - hermite4P1 1| ≤ 1e-10 ∧
    |hermite6_3P0 1 - hermite6_3P1 1| ≤ 1e-10 ∧ |hermite6_3P1 2 - hermite6_3P2 2| ≤ 1e-10 ∧
    |hermite6_5P0 1 - hermite6_5P1 1| ≤ 1e-10 ∧ |hermite6_5P1 2 - hermite6_5P2 2| ≤ 1e-10 := by
  norm_num [bspline3P0, bspline3P1, bspline5P0, bspline5P1, bspline5P2, lagrange4P0,
    lagrange4P1, lagrange6P0, lagrange6P1, lagrange6P2, watteP0, watteP1, parabolic2xP0,
    parabolic2xP1, osculating4P0, osculating4P1, osculating6P0, osculating6P1, osculating6P2,
    hermite4P0, hermite4P1, hermite6_3P0, hermite6_3P1, hermite6_3P2, hermite6_5P0,
    hermite6_5P1, hermite6_5P2]

/-! ### C2: boundary policy of the windowed kernels -/

/-- Index clamping as the specification words it: clamp `j` into `[0, n-1]`. -/
def clampIdx (n : ℕ) (j : ℤ) : ℤ := max 0 (min j ((n : ℤ) - 1))

/-- Specification model (§4.4 boundary policy) of the Hermite4 routine:
identical position mapping and window, but each window term reads
`in[clamp(j)]` with `clampIdx` and weights it with the impulse response of
the signed distance.  Claim C2 asserts the code behaves this way. -/
def hermite4SpecClamped (l : List ℝ) (m : ℕ) : List ℝ :=
  if l.length = 0 then List.replicate m 0
  else if l.length = 1 then List.replicate m (l.getD 0 0)
  else
    (List.range m).map (fun (i : ℕ) =>
      match ratioUnguarded l.length m with
      | Option.none => 0
      | Option.some r =>
        let pos := (i : ℝ) * r
        let c : ℤ := ⌊pos + 1/2⌋
        ((List.range 4).map (fun (w : ℕ) =>
          let j : ℤ := (c - 1) + w
          l.getD (clampIdx l.length j).toNat 0 * hermite4Impulse (pos - (j : ℝ)))).sum)

/-- Specification model of C2's claimed behavior for the BSpline3 routine:
the code's routine with its skip-window replaced by the claimed clamped
window (boundary sample repeated). -/
def bspline3SpecClamped (l : List ℝ) (m : ℕ) : List ℝ :=
  if l.length = 0 then []
  else if l.length = 1 then List.replicate m (l.getD 0 0)
  else
    (List.range m).map (fun (i : ℕ) =>
      let pos := (i : ℝ) * ratioFor l.length m
      let c : ℤ := ⌊pos + 1/2⌋
      clampWindowSum l pos (c - 1) (c + 2) bspline3Kernel)

/-- Counterexample to C2 as stated: the BSpline3 routine is a windowed
non-spline kernel, yet on input `[1, 1]` with count 2 it skips the
out-of-range window indices (yielding `[5/6, 5/6]`) instead of clamping them
(which would yield `[1, 1]`). -/
theorem bspline3_does_not_clamp_cex :
    bspline3Interpolate [(1:ℝ), 1] 2 ≠ bspline3SpecClamped [(1:ℝ), 1] 2 := by
  have h1 : bspline3Interpolate [(1:ℝ), 1] 2 = [5/6, 5/6] := by
    unfold bspline3Interpolate skipWindowSum bspline3Kernel bspline3P0 bspline3P1 ratioFor
    norm_num [List.range_succ]
    simp only [show Int.toNat 4 = 4 from by simp, List.range_succ, List.range_zero,
      List.flatMap_cons, List.flatMap_nil, List.nil_append, List.cons_append, List.map_cons,
      List.map_nil, List.sum_cons, List.sum_nil]
    norm_num
  have h2 : bspline3SpecClamped [(1:ℝ), 1] 2 = [1, 1] := by
    unfold bspline3SpecClamped clampWindowSum bspline3Kernel bspline3P0 bspline3P1 ratioFor
    norm_num [List.range_succ]
    simp only [show Int.toNat 4 = 4 from by simp, List.range_succ, List.range_zero,
      List.flatMap_cons, List.flatMap_nil, List.nil_append, List.cons_append, List.map_cons,
      List.map_nil, List.sum_cons, List.sum_nil]
    norm_num
  rw [h1, h2]
  intro h
  rw [List.cons.injEq] at h
  norm_num at h

/-- C2 (amended): the Hermite4 routine (like the other `clampWindowSum`
routines) realises the clamped-boundary policy: every window term reads the
input at `clampIdx` — out-of-range indices repeat the nearest boundary
sample — weighted by the impulse response of the distance. -/
theorem hermite4_clamps_window (l : List ℝ) (m : ℕ) :
    hermite4Interpolate l m = hermite4SpecClamped l m := by
  unfold hermite4Interpolate hermite4SpecClamped clampWindowSum
  split_ifs with h0 h1
  · rfl
  · rfl
  · congr 1
    funext i
    cases hr : ratioUnguarded l.length m with
    | none => rfl
    | some r =>
      simp only []
      have h4 : ((⌊(i : ℝ) * r + 1/2⌋ + 2) - (⌊(i : ℝ) * r + 1/2⌋ - 1) + 1).toNat = 4 := by
        omega
      rw [h4]
      refine congrArg List.sum (List.map_congr_left (fun w _ => ?_))
      have hc : (if (⌊(i : ℝ) * r + 1/2⌋ - 1 + (w : ℤ)) < 0 then (0 : ℤ)
          else if (l.length : ℤ) - 1 < ⌊(i : ℝ) * r + 1/2⌋ - 1 + (w : ℤ)
            then (l.length : ℤ) - 1
            else ⌊(i : ℝ) * r + 1/2⌋ - 1 + (w : ℤ)) =
          clampIdx l.length (⌊(i : ℝ) * r + 1/2⌋ - 1 + (w : ℤ)) := by
        unfold clampIdx
        split_ifs <;> omega
      simp only [hc]
      rfl

/-! ### C10: instrumented embeddings

`Option`-returning variants of the three routines cited by C10, in which the
two runtime-failure sources of the Go code are explicit: `mkOut` models
`make([]float64, outSamples)` (panics on a negative count) and `getChecked`
models a slice read (panics out of range).  Reads of the generated knot
vector `x` and of the solver-internal temporaries (`h`, `l`, `mu`, `z`),
whose indices are immediate from the loop bounds, stay plain. -/

/-- Checked allocation: Go `make([]float64, m)` fails for negative `m`. -/
def mkOut (m : ℤ) : Option (List ℝ) :=
  if m < 0 then Option.none else Option.some (List.replicate m.toNat 0)

/-- Checked slice read: Go `l[j]` fails when `j` is out of range. -/
def getChecked (l : List ℝ) (j : ℤ) : Option ℝ :=
  if 0 ≤ j ∧ j < (l.length : ℤ) then Option.some (l.getD j.toNat 0) else Option.none

/-- Checked variant of `clampWindowSum`: every window read is bounds-checked. -/
def clampWindowSumChecked (l : List ℝ) (pos : ℝ) (lo hi : ℤ) (ker : ℝ → ℝ) : Option ℝ :=
  (List.range (hi - lo + 1).toNat).foldlM
    (fun (s : ℝ) (k : ℕ) =>
      let j : ℤ := lo + k
      let idx : ℤ := if j < 0 then 0 else if (l.length : ℤ) - 1 < j then (l.length : ℤ) - 1 else j
      (getChecked l idx).map (fun v => s + v * ker |pos - (j : ℝ)|))
    0

/-- Checked variant of `skipWindowSum`. -/
def skipWindowSumChecked (l : List ℝ) (pos : ℝ) (lo hi : ℤ) (ker : ℝ → ℝ) : Option ℝ :=
  (List.range (hi - lo + 1).toNat).foldlM
    (fun (s : ℝ) (k : ℕ) =>
      let j : ℤ := lo + k
      if j < 0 ∨ (l.length : ℤ) ≤ j then Option.some s
      else (getChecked l j).map (fun v => s + v * ker |pos - (j : ℝ)|))
    0

theorem getChecked_eq_some (l : List ℝ) (j : ℤ) (h0 : 0 ≤ j) (h1 : j < (l.length : ℤ)) :
    getChecked l j = Option.some (l.getD j.toNat 0) := by
  unfold getChecked
  rw [if_pos ⟨h0, h1⟩]

theorem mapM_eq_map_of_forall (js : List ℕ) (f : ℕ → Option ℝ) (g : ℕ → ℝ)
    (h : ∀ k ∈ js, f k = Option.some (g k)) : js.mapM f = Option.some (js.map g) := by
  induction js with
  | nil => rfl
  | cons a as ih =>
    rw [List.mapM_cons, h a (List.mem_cons_self a as),
      ih (fun k hk => h k (List.mem_cons_of_mem a hk))]
    rfl

theorem foldlM_eq_sum_of_forall (js : List ℕ) (step : ℝ → ℕ → Option ℝ) (g : ℕ → ℝ)
    (h : ∀ (s : ℝ), ∀ k ∈ js, step s k = Option.some (s + g k)) :
    ∀ s : ℝ, js.foldlM step s = Option.some (s + (js.map g).sum) := by
  induction js with
  | nil => intro s; simp [List.foldlM]
  | cons a as ih =>
    intro s
    rw [List.foldlM_cons, h s a (List.mem_cons_self a as)]
    show as.foldlM step (s + g a) = _
    rw [ih (fun s k hk => h s k (List.mem_cons_of_mem a hk)) (s + g a)]
    rw [List.map_cons, List.sum_cons, add_assoc]

theorem clampWindowSumChecked_eq (l : List ℝ) (pos : ℝ) (lo hi : ℤ) (ker : ℝ → ℝ)
    (hl : l ≠ []) :
    clampWindowSumChecked l pos lo hi ker = Option.some (clampWindowSum l pos lo hi ker) := by
  have hlen : 0 < (l.length : ℤ) := by
    have := List.length_pos.mpr hl
    exact_mod_cast this
  unfold clampWindowSumChecked clampWindowSum
  rw [foldlM_eq_sum_of_forall _ _
    (fun (k : ℕ) =>
      let j : ℤ := lo + k
      let idx : ℤ := if j < 0 then 0 else if (l.length : ℤ) - 1 < j then (l.length : ℤ) - 1 else j
      l.getD idx.toNat 0 * ker |pos - (j : ℝ)|)
    ?_ 0]
  · rw [zero_add]
  · intro s k _
    simp only []
    rw [getChecked_eq_some]
    · rfl
    · split_ifs <;> omega
    · split_ifs <;> omega

theorem skipWindowSumChecked_eq (l : List ℝ) (pos : ℝ) (lo hi : ℤ) (ker : ℝ → ℝ) :
    skipWindowSumChecked l pos lo hi ker = Option.some (skipWindowSum l pos lo hi ker) := by
  unfold skipWindowSumChecked skipWindowSum
  rw [foldlM_eq_sum_of_forall _ _
    (fun (k : ℕ) =>
      let j : ℤ := lo + k
      if j < 0 ∨ (l.length : ℤ) ≤ j then 0
      else l.getD j.toNat 0 * ker |pos - (j : ℝ)|)
    ?_ 0]
  · rw [zero_add]
  · intro s k _
    simp only []
    split_ifs with hj
    · rw [add_zero]
    · rw [getChecked_eq_some]
      · rfl
      · omega
      · omega

/-- Checked variant of `hermite4Interpolate`: allocation first (as in the
source), then the three input branches with bounds-checked reads. -/
def hermite4InterpolateChecked (l : List ℝ) (m : ℤ) : Option (List ℝ) := do
  let _ ← mkOut m
  if l.length = 0 then Option.some (List.replicate m.toNat 0)
  else if l.length = 1 then do
    let v ← getChecked l 0
    Option.some (List.replicate m.toNat v)
  else
    (List.range m.toNat).mapM (fun (i : ℕ) =>
      match ratioUnguarded l.length m.toNat with
      | Option.none => Option.some 0
      | Option.some r =>
        let pos := (i : ℝ) * r
        let c : ℤ := ⌊pos + 1/2⌋
        clampWindowSumChecked l pos (c - 1) (c + 2) hermite4Kernel)

/-- Checked variant of `bspline3Interpolate`: the empty-input branch returns
before any allocation, the other branches allocate first. -/
def bspline3InterpolateChecked (l : List ℝ) (m : ℤ) : Option (List ℝ) :=
  if l.length = 0 then Option.some []
  else if l.length = 1 then do
    let _ ← mkOut m
    let v ← getChecked l 0
    Option.some (List.replicate m.toNat v)
  else do
    let _ ← mkOut m
    (List.range m.toNat).mapM (fun (i : ℕ) =>
      let pos := (i : ℝ) * ratioFor l.length m.toNat
      let c : ℤ := ⌊pos + 1/2⌋
      skipWindowSumChecked l pos (c - 1) (c + 2) bspline3Kernel)

theorem mkOut_nonneg (m : ℤ) (h : 0 ≤ m) : mkOut m = Option.some (List.replicate m.toNat 0) := by
  unfold mkOut
  rw [if_neg (by omega)]

theorem hermite4InterpolateChecked_eq (l : List ℝ) (m : ℤ) (h : 0 ≤ m) :
    hermite4InterpolateChecked l m = Option.some (hermite4Interpolate l m.toNat) := by
  unfold hermite4InterpolateChecked hermite4Interpolate
  rw [mkOut_nonneg m h]
  show (if l.length = 0 then Option.some (List.replicate m.toNat 0)
    else if l.length = 1 then _ else _) = _
  split_ifs with h0 h1
  · rfl
  · have hl : l ≠ [] := by
      intro he
      rw [he] at h1
      simp at h1
    rw [getChecked_eq_some l 0 le_rfl (by simpa using List.length_pos.mpr hl)]
    rfl
  · have hl : l ≠ [] := by
      intro he
      exact h0 (by rw [he]; rfl)
    exact mapM_eq_map_of_forall _ _ _ (fun i _ => by
      cases hr : ratioUnguarded l.length m.toNat with
      | none => rfl
      | some r =>
        simp only []
        exact clampWindowSumChecked_eq l _ _ _ _ hl)

theorem bspline3InterpolateChecked_eq (l : List ℝ) (m : ℤ) (h : 0 ≤ m) :
    bspline3InterpolateChecked l m = Option.some (bspline3Interpolate l m.toNat) := by
  unfold bspline3InterpolateChecked bspline3Interpolate
  split_ifs with h0 h1
  · rfl
  · have hl : l ≠ [] := by
      intro he
      rw [he] at h1
      simp at h1
    rw [mkOut_nonneg m h, getChecked_eq_some l 0 le_rfl (by simpa using List.length_pos.mpr hl)]
    rfl
  · rw [mkOut_nonneg m h]
    show (List.range m.toNat).mapM _ = _
    exact mapM_eq_map_of_forall _ _ _ (fun i _ => skipWindowSumChecked_eq l _ _ _ _)

theorem hermite4InterpolateChecked_neg (l : List ℝ) (m : ℤ) (h : m < 0) :
    hermite4InterpolateChecked l m = Option.none := by
  unfold hermite4InterpolateChecked mkOut
  rw [if_pos h]
  rfl

theorem bspline3InterpolateChecked_neg (l : List ℝ) (m : ℤ) (hl : l ≠ []) (h : m < 0) :
    bspline3InterpolateChecked l m = Option.none := by
  unfold bspline3InterpolateChecked
  rw [if_neg (by simpa using hl)]
  split_ifs with h1
  · show (mkOut m).bind _ = _
    unfold mkOut
    rw [if_pos h]
    rfl
  · show (mkOut m).bind _ = _
    unfold mkOut
    rw [if_pos h]
    rfl

/-- Checked variant of `cubicSplineCoefficients`: every read of the value
vector `y` (the interpolation input) is bounds-checked; reads of the knot
vector `x` and the solver temporaries stay plain (their indices are immediate
from the loop bounds). -/
def cubicSplineCoefficientsChecked (x y : List ℝ) :
    Option (List ℝ × List ℝ × List ℝ × List ℝ) := do
  let n := x.length - 1
  let h := (List.range n).map (fun i => x.getD (i+1) 0 - x.getD i 0)
  let alpha ← (List.range n).mapM (fun (i : ℕ) =>
    if i = 0 then Option.some 0
    else do
      let a ← getChecked y ((i : ℤ) + 1)
      let b ← getChecked y (i : ℤ)
      let c ← getChecked y ((i : ℤ) - 1)
      Option.some ((3 / h.getD i 0) * (a - b) - (3 / h.getD (i-1) 0) * (b - c)))
  let fwd := (List.range (n-1)).foldl
    (fun (st : List ℝ × List ℝ × List ℝ) k =>
      let i := k + 1
      let li := 2 * (x.getD (i+1) 0 - x.getD (i-1) 0) - h.getD (i-1) 0 * st.2.1.getD (i-1) 0
      let mui := h.getD i 0 / li
      let zi := (alpha.getD i 0 - h.getD (i-1) 0 * st.2.2.getD (i-1) 0) / li
      (st.1.set i li, st.2.1.set i mui, st.2.2.set i zi))
    ((List.replicate (n+1) 0).set 0 1, List.replicate (n+1) 0, List.replicate (n+1) 0)
  let cL := (List.range n).foldl
    (fun (cl : List ℝ) k =>
      let j := n - 1 - k
      cl.set j (fwd.2.2.getD j 0 - fwd.2.1.getD j 0 * cl.getD (j+1) 0))
    (List.replicate (n+1) 0)
  let aL ← (List.range n).mapM (fun (j : ℕ) => getChecked y (j : ℤ))
  let bL ← (List.range n).mapM (fun (j : ℕ) => do
    let a ← getChecked y ((j : ℤ) + 1)
    let b ← getChecked y (j : ℤ)
    Option.some ((a - b) / h.getD j 0 - h.getD j 0 * (cL.getD (j+1) 0 + 2 * cL.getD j 0) / 3))
  let dL := (List.range n).map (fun j => (cL.getD (j+1) 0 - cL.getD j 0) / (3 * h.getD j 0))
  Option.some (aL, bL, cL, dL)

/-- Checked variant of `applyCubicSpline`: coefficient solve (checked input
reads), then allocation, then the evaluation loop with bounds-checked reads
of the four coefficient arrays at the clamped segment index. -/
def applyCubicSplineChecked (l : List ℝ) (m : ℤ) : Option (List ℝ) :=
  if l.length = 0 then Option.some []
  else if l.length = 1 then do
    let _ ← mkOut m
    let v ← getChecked l 0
    Option.some (List.replicate m.toNat v)
  else do
    let x := (List.range l.length).map (fun (i : ℕ) => (i : ℝ))
    let co ← cubicSplineCoefficientsChecked x l
    let _ ← mkOut m
    (List.range m.toNat).mapM (fun (i : ℕ) => do
      let pos := (i : ℝ) * ratioFor l.length m.toNat
      let j0 : ℤ := ⌊pos⌋
      let j1 : ℤ := if (l.length : ℤ) - 1 ≤ j0 then (l.length : ℤ) - 2 else j0
      let j : ℤ := if j1 < 0 then 0 else j1
      let dx := pos - (j : ℝ)
      let a ← getChecked co.1 j
      let b ← getChecked co.2.1 j
      let c ← getChecked co.2.2.1 j
      let d ← getChecked co.2.2.2 j
      Option.some (a + b * dx + c * (dx * dx) + d * (dx * dx * dx)))

theorem foldl_length_invariant (js : List ℕ) (step : List ℝ → ℕ → List ℝ)
    (h : ∀ cl k, (step cl k).length = cl.length) :
    ∀ cl, (js.foldl step cl).length = cl.length := by
  induction js with
  | nil => intro cl; rfl
  | cons a as ih => intro cl; rw [List.foldl_cons, ih, h]

theorem cubicSplineCoefficients_lengths (x y : List ℝ) :
    (cubicSplineCoefficients x y).1.length = x.length - 1 ∧
    (cubicSplineCoefficients x y).2.1.length = x.length - 1 ∧
    (cubicSplineCoefficients x y).2.2.1.length = (x.length - 1) + 1 ∧
    (cubicSplineCoefficients x y).2.2.2.length = x.length - 1 := by
  unfold cubicSplineCoefficients
  refine ⟨by simp, by simp, ?_, by simp⟩
  show ((List.range (x.length - 1)).foldl _ (List.replicate (x.length - 1 + 1) 0)).length = _
  rw [foldl_length_invariant _ _ (fun cl k => List.length_set cl _ _) _, List.length_replicate]

theorem alphaChecked_eq (y hL : List ℝ) (n : ℕ) (hny : n < y.length) :
    (List.range n).mapM (fun (i : ℕ) =>
      if i = 0 then Option.some (0:ℝ)
      else
        (getChecked y ((i : ℤ) + 1)).bind (fun a =>
          (getChecked y (i : ℤ)).bind (fun b =>
            (getChecked y ((i : ℤ) - 1)).bind (fun c =>
              Option.some ((3 / hL.getD i 0) * (a - b) - (3 / hL.getD (i-1) 0) * (b - c)))))) =
    Option.some ((List.range n).map (fun i =>
      if i = 0 then 0
      else (3 / hL.getD i 0) * (y.getD (i+1) 0 - y.getD i 0)
        - (3 / hL.getD (i-1) 0) * (y.getD i 0 - y.getD (i-1) 0))) := by
  refine mapM_eq_map_of_forall _ _ _ (fun k hk => ?_)
  rw [List.mem_range] at hk
  by_cases h0 : k = 0
  · rw [if_pos h0, if_pos h0]
  · rw [if_neg h0, if_neg h0,
      getChecked_eq_some y ((k : ℤ) + 1) (by omega) (by omega),
      getChecked_eq_some y (k : ℤ) (by omega) (by omega),
      getChecked_eq_some y ((k : ℤ) - 1) (by omega) (by omega)]
    show Option.some _ = Option.some _
    rw [show ((k : ℤ) + 1).toNat = k + 1 by omega, show ((k : ℤ)).toNat = k by omega,
      show ((k : ℤ) - 1).toNat = k - 1 by omega]

theorem aChecked_eq (y : List ℝ) (n : ℕ) (hny : n < y.length) :
    (List.range n).mapM (fun (j : ℕ) => getChecked y (j : ℤ)) =
    Option.some ((List.range n).map (fun j => y.getD j 0)) := by
  refine mapM_eq_map_of_forall _ _ _ (fun k hk => ?_)
  rw [List.mem_range] at hk
  rw [getChecked_eq_some y (k : ℤ) (by omega) (by omega),
    show ((k : ℤ)).toNat = k by omega]

theorem bChecked_eq (y hL cl : List ℝ) (n : ℕ) (hny : n < y.length) :
    (List.range n).mapM (fun (j : ℕ) =>
      (getChecked y ((j : ℤ) + 1)).bind (fun a =>
        (getChecked y (j : ℤ)).bind (fun b =>
          Option.some ((a - b) / hL.getD j 0
            - hL.getD j 0 * (cl.getD (j+1) 0 + 2 * cl.getD j 0) / 3)))) =
    Option.some ((List.range n).map (fun j =>
      (y.getD (j+1) 0 - y.getD j 0) / hL.getD j 0
        - hL.getD j 0 * (cl.getD (j+1) 0 + 2 * cl.getD j 0) / 3)) := by
  refine mapM_eq_map_of_forall _ _ _ (fun k hk => ?_)
  rw [List.mem_range] at hk
  rw [getChecked_eq_some y ((k : ℤ) + 1) (by omega) (by omega),
    getChecked_eq_some y (k : ℤ) (by omega) (by omega)]
  show Option.some _ = Option.some _
  rw [show ((k : ℤ) + 1).toNat = k + 1 by omega, show ((k : ℤ)).toNat = k by omega]

theorem cubicSplineCoefficientsChecked_eq (x y : List ℝ) (hxy : x.length - 1 < y.length) :
    cubicSplineCoefficientsChecked x y = Option.some (cubicSplineCoefficients x y) := by
  unfold cubicSplineCoefficientsChecked cubicSplineCoefficients
  simp only [alphaChecked_eq, aChecked_eq, bChecked_eq, Option.bind_eq_bind, Option.some_bind, hxy]

theorem applyCubicSplineChecked_eq (l : List ℝ) (m : ℤ) (h : 0 ≤ m) :
    applyCubicSplineChecked l m = Option.some (applyCubicSpline l m.toNat) := by
  unfold applyCubicSplineChecked applyCubicSpline
  split_ifs with h0 h1
  · rfl
  · have hl : l ≠ [] := by
      intro he
      rw [he] at h1
      simp at h1
    rw [mkOut_nonneg m h, getChecked_eq_some l 0 le_rfl (by simpa using List.length_pos.mpr hl)]
    rfl
  · have hlen : 2 ≤ l.length := by omega
    have hx : ((List.range l.length).map (fun (i : ℕ) => (i : ℝ))).length = l.length := by
      rw [List.length_map, List.length_range]
    simp only [Option.bind_eq_bind]
    rw [cubicSplineCoefficientsChecked_eq _ l (by rw [hx]; omega)]
    simp only [Option.some_bind, mkOut_nonneg m h]
    refine mapM_eq_map_of_forall _ _ _ (fun i _ => ?_)
    obtain ⟨la, lb, lc, ld⟩ := cubicSplineCoefficients_lengths
      ((List.range l.length).map (fun (i : ℕ) => (i : ℝ))) l
    rw [hx] at la lb lc ld
    rw [getChecked_eq_some _ _ (by split_ifs <;> omega) (by rw [la]; split_ifs <;> omega),
      getChecked_eq_some _ _ (by split_ifs <;> omega) (by rw [lb]; split_ifs <;> omega),
      getChecked_eq_some _ _ (by split_ifs <;> omega) (by rw [lc]; split_ifs <;> omega),
      getChecked_eq_some _ _ (by split_ifs <;> omega) (by rw [ld]; split_ifs <;> omega)]
    rfl

theorem applyCubicSplineChecked_neg (l : List ℝ) (m : ℤ) (hl : l ≠ []) (h : m < 0) :
    applyCubicSplineChecked l m = Option.none := by
  unfold applyCubicSplineChecked
  rw [if_neg (by simpa using hl)]
  split_ifs with h1
  · show (mkOut m).bind _ = _
    unfold mkOut
    rw [if_pos h]
    rfl
  · have hlen : l.length ≠ 0 := by simpa using hl
    simp only [Option.bind_eq_bind]
    rw [cubicSplineCoefficientsChecked_eq _ l (by rw [List.length_map, List.length_range]; omega)]
    simp only [Option.some_bind]
    show (mkOut m).bind _ = _
    unfold mkOut
    rw [if_pos h]
    rfl

/-- C10: under the precondition `outSamples ≥ 0`, the instrumented embeddings
of the three routines cited by the claim — the clamping `hermite4Interpolate`,
the skipping `bspline3Interpolate`, and `applyCubicSpline` with its clamped
segment index — never take the out-of-range branch of any checked read:
they succeed and agree with the plain embeddings.  For a negative requested
count with a non-empty input, the output allocation itself is the failure
(`mkOut`, modelling the `make` panic), so `outSamples ≥ 0` is a genuine,
unchecked precondition. -/
theorem checked_routines_safe_and_negative_count_fails :
    (∀ (l : List ℝ) (m : ℤ), 0 ≤ m →
      hermite4InterpolateChecked l m = Option.some (hermite4Interpolate l m.toNat) ∧
      bspline3InterpolateChecked l m = Option.some (bspline3Interpolate l m.toNat) ∧
      applyCubicSplineChecked l m = Option.some (applyCubicSpline l m.toNat)) ∧
    (∀ (l : List ℝ) (m : ℤ), l ≠ [] → m < 0 →
      hermite4InterpolateChecked l m = Option.none ∧
      bspline3InterpolateChecked l m = Option.none ∧
      applyCubicSplineChecked l m = Option.none) :=
  ⟨fun l m h => ⟨hermite4InterpolateChecked_eq l m h, bspline3InterpolateChecked_eq l m h,
      applyCubicSplineChecked_eq l m h⟩,
   fun l m hl h => ⟨hermite4InterpolateChecked_neg l m h, bspline3InterpolateChecked_neg l m hl h,
      applyCubicSplineChecked_neg l m hl h⟩⟩

/-- Witness for C10 at `[1, 2]` with counts `3` and `-1`. -/
theorem checked_routines_safe_witness :
    hermite4InterpolateChecked [(1:ℝ), 2] 3 = Option.some (hermite4Interpolate [(1:ℝ), 2] 3) ∧
    applyCubicSplineChecked [(1:ℝ), 2] (-1) = Option.none := by
  obtain ⟨hpos, hneg⟩ := checked_routines_safe_and_negative_count_fails
  constructor
  · simpa using (hpos [(1:ℝ), 2] 3 (by norm_num)).1
  · exact (hneg [(1:ℝ), 2] (-1) (by simp) (by norm_num)).2.2

/-! ### C7: monotonicity preservation of the Fritsch–Carlson path -/

/-- Nondecreasing sample sequence (element-wise over `getD`, adjacent form). -/
def IsNondecreasing (l : List ℝ) : Prop :=
  ∀ i : ℕ, i + 1 < l.length → l.getD i 0 ≤ l.getD (i+1) 0

/-- Value of one cubic Hermite segment with unit knot spacing: the
`h00*y0 + h10*m0 + h01*y1 + h11*m1` combination evaluated in
`applyMonotonicCubic` (and `applyAkimaSpline`) with `h = 1`. -/
def hermiteEval (y0 y1 m0 m1 u : ℝ) : ℝ :=
  (2*(u*u*u) - 3*(u*u) + 1) * y0 + ((u*u*u) - 2*(u*u) + u) * m0
    + (-2*(u*u*u) + 3*(u*u)) * y1 + ((u*u*u) - (u*u)) * m1

/-- Fritsch–Carlson sufficient condition, box form: on a segment with secant
slope `d ≥ 0` and tangents `m0, m1 ∈ [0, 3d]`, the derivative of the cubic
Hermite interpolant is nonnegative throughout `[0, 1]`. -/
theorem hermDeriv_nonneg (d m0 m1 u : ℝ) (hd : 0 ≤ d) (hm0 : 0 ≤ m0) (hm1 : 0 ≤ m1)
    (hb0 : m0 ≤ 3*d) (hb1 : m1 ≤ 3*d) (hu0 : 0 ≤ u) (hu1 : u ≤ 1) :
    0 ≤ m0*(1-u)*(1-3*u) + m1*u*(3*u-2) + 6*d*u*(1-u) := by
  rcases le_or_lt u (1/3) with h13 | h13
  · nlinarith [mul_nonneg hd (mul_nonneg hu0 hu0),
      mul_nonneg (mul_nonneg hm0 (by linarith : (0:ℝ) ≤ 1-u)) (by linarith : (0:ℝ) ≤ 1-3*u),
      mul_nonneg (mul_nonneg (by linarith : (0:ℝ) ≤ 3*d - m1) hu0) (by linarith : (0:ℝ) ≤ 2-3*u)]
  · rcases le_or_lt u (2/3) with h23 | h23
    · nlinarith [mul_nonneg hd (sq_nonneg (2*u-1)),
        mul_nonneg (mul_nonneg (by linarith : (0:ℝ) ≤ 3*d-m0) (by linarith : (0:ℝ) ≤ 1-u))
          (by linarith : (0:ℝ) ≤ 3*u-1),
        mul_nonneg (mul_nonneg (by linarith : (0:ℝ) ≤ 3*d-m1) hu0) (by linarith : (0:ℝ) ≤ 2-3*u)]
    · nlinarith [mul_nonneg hd (mul_nonneg (by linarith : (0:ℝ) ≤ 1-u) (by linarith : (0:ℝ) ≤ 1-u)),
        mul_nonneg (mul_nonneg (by linarith : (0:ℝ) ≤ 3*d-m0) (by linarith : (0:ℝ) ≤ 1-u))
          (by linarith : (0:ℝ) ≤ 3*u-1),
        mul_nonneg (mul_nonneg hm1 hu0) (by linarith : (0:ℝ) ≤ 3*u-2)]

/-- The cubic Hermite segment is nondecreasing on `[0, 1]` under the
Fritsch–Carlson box condition (via the exact Simpson identity
`6(H(t) - H(s)) = (t-s)(P(s) + 4P((s+t)/2) + P(t))` for the quadratic
derivative `P`). -/
theorem hermiteEval_mono (y0 y1 m0 m1 s t : ℝ) (hy : y0 ≤ y1) (hm0 : 0 ≤ m0) (hm1 : 0 ≤ m1)
    (hb0 : m0 ≤ 3*(y1-y0)) (hb1 : m1 ≤ 3*(y1-y0)) (hs0 : 0 ≤ s) (hst : s ≤ t) (ht1 : t ≤ 1) :
    hermiteEval y0 y1 m0 m1 s ≤ hermiteEval y0 y1 m0 m1 t := by
  have hd : (0:ℝ) ≤ y1 - y0 := by linarith
  have h1 := hermDeriv_nonneg (y1-y0) m0 m1 s hd hm0 hm1 hb0 hb1 hs0 (le_trans hst ht1)
  have h2 := hermDeriv_nonneg (y1-y0) m0 m1 t hd hm0 hm1 hb0 hb1 (le_trans hs0 hst) ht1
  have h3 := hermDeriv_nonneg (y1-y0) m0 m1 ((s+t)/2) hd hm0 hm1 hb0 hb1 (by linarith)
    (by linarith)
  have key : 6 * (hermiteEval y0 y1 m0 m1 t - hermiteEval y0 y1 m0 m1 s)
      = (t - s) * ((m0*(1-s)*(1-3*s) + m1*s*(3*s-2) + 6*(y1-y0)*s*(1-s))
        + 4*(m0*(1-((s+t)/2))*(1-3*((s+t)/2)) + m1*((s+t)/2)*(3*((s+t)/2)-2)
            + 6*(y1-y0)*((s+t)/2)*(1-((s+t)/2)))
        + (m0*(1-t)*(1-3*t) + m1*t*(3*t-2) + 6*(y1-y0)*t*(1-t))) := by
    unfold hermiteEval
    ring
  nlinarith [mul_nonneg (by linarith : (0:ℝ) ≤ t - s) (by linarith :
    (0:ℝ) ≤ (m0*(1-s)*(1-3*s) + m1*s*(3*s-2) + 6*(y1-y0)*s*(1-s))
      + 4*(m0*(1-((s+t)/2))*(1-3*((s+t)/2)) + m1*((s+t)/2)*(3*((s+t)/2)-2)
          + 6*(y1-y0)*((s+t)/2)*(1-((s+t)/2)))
      + (m0*(1-t)*(1-3*t) + m1*t*(3*t-2) + 6*(y1-y0)*t*(1-t)))]

theorem hermiteEval_zero (y0 y1 m0 m1 : ℝ) : hermiteEval y0 y1 m0 m1 0 = y0 := by
  unfold hermiteEval
  ring

theorem hermiteEval_one (y0 y1 m0 m1 : ℝ) : hermiteEval y0 y1 m0 m1 1 = y1 := by
  unfold hermiteEval
  ring

theorem getD_of_le (l : List ℝ) {i : ℕ} (h : l.length ≤ i) : l.getD i 0 = 0 := by
  rw [List.getD_eq_getElem?_getD, List.getElem?_eq_none h]
  rfl

theorem nondec_le_of_le (l : List ℝ) (hnd : IsNondecreasing l) :
    ∀ b a : ℕ, a ≤ b → b < l.length → l.getD a 0 ≤ l.getD b 0 := by
  intro b
  induction b with
  | zero =>
    intro a ha _
    rw [Nat.le_zero.mp ha]
  | succ b ih =>
    intro a ha hb
    by_cases heq : a = b + 1
    · rw [heq]
    · exact le_trans (ih a (by omega) (by omega)) (hnd b hb)

theorem foldl_invariant (P : ℕ → List ℝ → Prop) (step : List ℝ → ℕ → List ℝ)
    (hstep : ∀ K ms, P K ms → P (K+1) (step ms K)) :
    ∀ (K : ℕ) (ms : List ℝ), P 0 ms → P K ((List.range K).foldl step ms) := by
  intro K
  induction K with
  | zero => intro ms h; exact h
  | succ K ih =>
    intro ms h
    rw [List.range_succ, List.foldl_append, List.foldl_cons, List.foldl_nil]
    exact hstep K _ (ih ms h)

theorem getD_set2 (ms : List ℝ) (K : ℕ) (vK vK1 : ℝ) (k : ℕ) (hK1 : K + 1 < ms.length) :
    ((ms.set K vK).set (K+1) vK1).getD k 0 =
      if k = K + 1 then vK1 else if k = K then vK else ms.getD k 0 := by
  by_cases h1 : k = K + 1
  · rw [if_pos h1, h1, getD_set_self _ _ (by rw [List.length_set]; omega)]
  · rw [if_neg h1, getD_set_ne _ _ (by omega)]
    by_cases h2 : k = K
    · rw [if_pos h2, h2, getD_set_self _ _ (by omega)]
    · rw [if_neg h2, getD_set_ne _ _ (by omega)]

/-- Core invariant step for the two-index update of the rescaling pass. -/
theorem set_pair_props (ms dl : List ℝ) (n K : ℕ) (vK vK1 : ℝ)
    (hlen : ms.length = n) (hK : K + 1 < n)
    (hnn : ∀ k, 0 ≤ ms.getD k 0)
    (hboxes : ∀ k, k < K → ms.getD k 0 ≤ 3 * dl.getD k 0 ∧ ms.getD (k+1) 0 ≤ 3 * dl.getD k 0)
    (h0K : 0 ≤ vK) (hKle : vK ≤ ms.getD K 0) (hK3 : vK ≤ 3 * dl.getD K 0)
    (h0K1 : 0 ≤ vK1) (hK13 : vK1 ≤ 3 * dl.getD K 0) :
    ((ms.set K vK).set (K+1) vK1).length = n ∧
    (∀ k, 0 ≤ ((ms.set K vK).set (K+1) vK1).getD k 0) ∧
    (∀ k, k < K + 1 →
      ((ms.set K vK).set (K+1) vK1).getD k 0 ≤ 3 * dl.getD k 0 ∧
      ((ms.set K vK).set (K+1) vK1).getD (k+1) 0 ≤ 3 * dl.getD k 0) := by
  have hK1' : K + 1 < ms.length := by omega
  refine ⟨by rw [List.length_set, List.length_set, hlen], ?_, ?_⟩
  · intro k
    rw [getD_set2 ms K vK vK1 k hK1']
    split_ifs
    · exact h0K1
    · exact h0K
    · exact hnn k
  · intro k hk
    rw [getD_set2 ms K vK vK1 k hK1', getD_set2 ms K vK vK1 (k+1) hK1']
    by_cases hkK : k = K
    · rw [if_neg (by omega), if_pos hkK, if_pos (by omega), hkK]
      exact ⟨hK3, hK13⟩
    · have hkltK : k < K := by omega
      rw [if_neg (by omega), if_neg (by omega), if_neg (by omega)]
      constructor
      · exact (hboxes k hkltK).1
      · by_cases hk1K : k + 1 = K
        · rw [if_pos hk1K]
          calc vK ≤ ms.getD K 0 := hKle
            _ = ms.getD (k+1) 0 := by rw [hk1K]
            _ ≤ 3 * dl.getD k 0 := (hboxes k hkltK).2
        · rw [if_neg hk1K]
          exact (hboxes k hkltK).2


set_option maxHeartbeats 2000000 in
theorem monotonicCubicSlopes_props (l : List ℝ) (h2 : 2 ≤ l.length) (hnd : IsNondecreasing l) :
    (monotonicCubicSlopes ((List.range l.length).map (fun (i : ℕ) => (i : ℝ))) l).length
      = l.length ∧
    (∀ k, 0 ≤ (monotonicCubicSlopes ((List.range l.length).map (fun (i : ℕ) => (i : ℝ))) l).getD k 0) ∧
    (∀ k, k + 1 < l.length →
      (monotonicCubicSlopes ((List.range l.length).map (fun (i : ℕ) => (i : ℝ))) l).getD k 0
        ≤ 3 * (l.getD (k+1) 0 - l.getD k 0) ∧
      (monotonicCubicSlopes ((List.range l.length).map (fun (i : ℕ) => (i : ℝ))) l).getD (k+1) 0
        ≤ 3 * (l.getD (k+1) 0 - l.getD k 0)) := by
  set xs : List ℝ := (List.range l.length).map (fun (i : ℕ) => (i : ℝ)) with hxs
  have hxslen : xs.length = l.length := by
    rw [hxs, List.length_map, List.length_range]
  set dl : List ℝ := (List.range (xs.length - 1)).map (fun i =>
      (l.getD (i+1) 0 - l.getD i 0) / (xs.getD (i+1) 0 - xs.getD i 0)) with hdl
  -- the delta values
  have hxval : ∀ i, i < l.length → xs.getD i 0 = (i : ℝ) := by
    intro i hi
    rw [hxs]
    exact getD_map_range _ (by omega)
  have hdelta_eq : ∀ i, i + 1 < l.length → dl.getD i 0 = l.getD (i+1) 0 - l.getD i 0 := by
    intro i hi
    rw [hdl, getD_map_range _ (by omega), hxval (i+1) (by omega), hxval i (by omega)]
    push_cast
    rw [show ((i:ℝ) + 1 - (i:ℝ)) = 1 by ring, div_one]
  have hdelta_nonneg : ∀ k, 0 ≤ dl.getD k 0 := by
    intro k
    by_cases hk : k + 1 < l.length
    · rw [hdelta_eq k hk]
      have := hnd k hk
      linarith
    · rw [getD_of_le dl (by rw [hdl, List.length_map, List.length_range]; omega)]
  set msl : List ℝ := (List.range xs.length).map (fun i =>
      if i = 0 then dl.getD 0 0
      else if i = xs.length - 1 then dl.getD (xs.length-2) 0
      else if dl.getD (i-1) 0 * dl.getD i 0 ≤ 0 then 0
      else (dl.getD (i-1) 0 + dl.getD i 0) / 2) with hmsl
  have hmsl_len : msl.length = l.length := by
    rw [hmsl, List.length_map, List.length_range, hxslen]
  have hmsl_nonneg : ∀ k, 0 ≤ msl.getD k 0 := by
    intro k
    by_cases hk : k < l.length
    · rw [hmsl, getD_map_range _ (by omega)]
      split_ifs
      · exact hdelta_nonneg 0
      · exact hdelta_nonneg _
      · exact le_refl 0
      · exact div_nonneg (add_nonneg (hdelta_nonneg _) (hdelta_nonneg _)) (by norm_num)
    · rw [getD_of_le msl (by omega)]
  -- the rescaling fold
  have main := foldl_invariant
    (fun K ms => K ≤ l.length - 1 →
      ms.length = l.length ∧ (∀ k, 0 ≤ ms.getD k 0) ∧
      ∀ k, k < K → ms.getD k 0 ≤ 3 * dl.getD k 0 ∧ ms.getD (k+1) 0 ≤ 3 * dl.getD k 0)
    (fun (ms : List ℝ) i =>
      if |dl.getD i 0| < 1e-10 then (ms.set i 0).set (i+1) 0
      else
        let a := ms.getD i 0 / dl.getD i 0
        let b := ms.getD (i+1) 0 / dl.getD i 0
        if a * a + b * b > 3 * 3 then
          let t := 3 / Real.sqrt (a * a + b * b)
          (ms.set i (t * a * dl.getD i 0)).set (i+1) (t * b * dl.getD i 0)
        else ms)
    ?hstep (xs.length - 1) msl ?base
  case base =>
    intro _
    exact ⟨hmsl_len, hmsl_nonneg, fun k hk => absurd hk (Nat.not_lt_zero k)⟩
  case hstep =>
    intro K ms hP hK1
    obtain ⟨hlen, hnn, hboxes⟩ := hP (by omega)
    have hKn : K + 1 < l.length := by omega
    simp only []
    split_ifs with habs hgt
    · -- |delta| < 1e-10: zero both tangents
      refine ⟨?_, ?_, ?_⟩ <;>
        [skip; skip; skip]
      all_goals {
        have h := set_pair_props ms dl l.length K 0 0 hlen hKn hnn hboxes
          (le_refl 0) (hnn K) (by nlinarith [hdelta_nonneg K]) (le_refl 0)
          (by nlinarith [hdelta_nonneg K])
        first
        | exact h.1
        | exact h.2.1
        | exact fun k hk => h.2.2 k hk
      }
    · -- rescale branch
      have hd10 : (1e-10 : ℝ) ≤ dl.getD K 0 := by
        rcases abs_cases (dl.getD K 0) with ⟨he, _⟩ | ⟨he, _⟩
        · linarith [not_lt.mp habs, he.symm.le]
        · nlinarith [hdelta_nonneg K, not_lt.mp habs]
      have hdpos : 0 < dl.getD K 0 := by linarith
      set d := dl.getD K 0 with hd
      set a := ms.getD K 0 / d with ha
      set b := ms.getD (K+1) 0 / d with hb
      have ha0 : 0 ≤ a := div_nonneg (hnn K) hdpos.le
      have hb0 : 0 ≤ b := div_nonneg (hnn (K+1)) hdpos.le
      have had : a * d = ms.getD K 0 := by rw [ha]; field_simp
      have hbd : b * d = ms.getD (K+1) 0 := by rw [hb]; field_simp
      have hs : (0:ℝ) ≤ a*a + b*b := by positivity
      have hsq3 : (3:ℝ) ≤ Real.sqrt (a*a + b*b) := by
        rw [show (3:ℝ) = Real.sqrt 9 by
          rw [show (9:ℝ) = 3^2 by norm_num, Real.sqrt_sq (by norm_num)]]
        exact Real.sqrt_le_sqrt (by nlinarith)
      have hsqpos : 0 < Real.sqrt (a*a + b*b) := by linarith
      have hasq : a ≤ Real.sqrt (a*a + b*b) := (Real.le_sqrt ha0 hs).mpr (by nlinarith)
      have hbsq : b ≤ Real.sqrt (a*a + b*b) := (Real.le_sqrt hb0 hs).mpr (by nlinarith)
      have ht0 : 0 ≤ 3 / Real.sqrt (a*a + b*b) := by positivity
      have ht1 : 3 / Real.sqrt (a*a + b*b) ≤ 1 := by
        rw [div_le_one hsqpos]
        exact hsq3
      have hta : 3 / Real.sqrt (a*a + b*b) * a ≤ 3 := by
        rw [div_mul_eq_mul_div, div_le_iff₀ hsqpos]
        nlinarith
      have htb : 3 / Real.sqrt (a*a + b*b) * b ≤ 3 := by
        rw [div_mul_eq_mul_div, div_le_iff₀ hsqpos]
        nlinarith
      have h := set_pair_props ms dl l.length K
        (3 / Real.sqrt (a*a + b*b) * a * d) (3 / Real.sqrt (a*a + b*b) * b * d)
        hlen hKn hnn hboxes
        (by positivity)
        (by nlinarith [mul_nonneg (mul_nonneg (by linarith : (0:ℝ) ≤ 1 - 3 / Real.sqrt (a*a + b*b)) ha0) hdpos.le])
        (by nlinarith)
        (by positivity)
        (by nlinarith)
      exact ⟨h.1, h.2.1, fun k hk => h.2.2 k hk⟩
    · -- already within the disk
      refine ⟨hlen, hnn, ?_⟩
      intro k hk
      by_cases hkK : k = K
      · subst hkK
        have hd10 : (1e-10 : ℝ) ≤ dl.getD k 0 := by
          rcases abs_cases (dl.getD k 0) with ⟨he, _⟩ | ⟨he, _⟩
          · linarith [not_lt.mp habs, he.symm.le]
          · nlinarith [hdelta_nonneg k, not_lt.mp habs]
        have hdpos : 0 < dl.getD k 0 := by linarith
        have hle : ms.getD k 0 / dl.getD k 0 ≤ 3 ∧ ms.getD (k+1) 0 / dl.getD k 0 ≤ 3 := by
          constructor <;>
            nlinarith [not_lt.mp hgt, div_nonneg (hnn k) hdpos.le,
              div_nonneg (hnn (k+1)) hdpos.le]
        constructor
        · have := (div_le_iff₀ hdpos).mp hle.1
          linarith
        · have := (div_le_iff₀ hdpos).mp hle.2
          linarith
      · exact hboxes k (by omega)
  have hfinal := main (by omega)
  refine ⟨hfinal.1, hfinal.2.1, ?_⟩
  intro k hk
  have hbox := hfinal.2.2 k (by omega)
  rw [hdelta_eq k hk] at hbox
  exact hbox


/-- Clamped segment index of the spline evaluation loops:
`j := int(pos)`, then `if j >= len(in)-1 { j = len(in)-2 }; if j < 0 { j = 0 }`. -/
def segIdx (n : ℕ) (p : ℝ) : ℤ :=
  let j0 : ℤ := ⌊p⌋
  let j1 : ℤ := if (n : ℤ) - 1 ≤ j0 then (n : ℤ) - 2 else j0
  if j1 < 0 then 0 else j1

theorem segIdx_facts (n : ℕ) (p : ℝ) (hn : 2 ≤ n) (hp0 : 0 ≤ p) (hp1 : p ≤ (n : ℝ) - 1) :
    0 ≤ segIdx n p ∧ segIdx n p ≤ (n : ℤ) - 2 ∧
    ((segIdx n p : ℝ) ≤ p) ∧ p ≤ (segIdx n p : ℝ) + 1 := by
  unfold segIdx
  simp only []
  have h0f : (0:ℤ) ≤ ⌊p⌋ := Int.floor_nonneg.mpr hp0
  have hfle : (⌊p⌋ : ℝ) ≤ p := Int.floor_le p
  have hflt : p < ⌊p⌋ + 1 := Int.lt_floor_add_one p
  have hupper : ⌊p⌋ ≤ (n : ℤ) - 1 := by
    have h1 : ⌊p⌋ ≤ ⌊(n : ℝ) - 1⌋ := Int.floor_le_floor hp1
    have h2 : ((n : ℝ) - 1) = (((n : ℤ) - 1 : ℤ) : ℝ) := by push_cast; ring
    rw [h2, Int.floor_intCast] at h1
    exact h1
  split_ifs with hc hneg hneg
  · omega
  · refine ⟨by omega, by omega, ?_, ?_⟩
    · have : (((n : ℤ) - 1 : ℤ) : ℝ) ≤ (⌊p⌋ : ℝ) := by exact_mod_cast hc
      push_cast at this ⊢
      linarith
    · push_cast
      linarith
  · omega
  · refine ⟨by omega, by omega, hfle, by linarith [hflt]⟩

theorem segIdx_mono (n : ℕ) (p q : ℝ) (hpq : p ≤ q) : segIdx n p ≤ segIdx n q := by
  unfold segIdx
  simp only []
  have := Int.floor_le_floor hpq
  split_ifs <;> omega

/-- The body of one output sample of `applyMonotonicCubic` (and
`applyAkimaSpline`) at position `pos`, with tangent vector `ms`:
definitionally equal to the loop body in the source embedding. -/
def mcValue (l ms : List ℝ) (pos : ℝ) : ℝ :=
  let x := (List.range l.length).map (fun (i : ℕ) => (i : ℝ))
  let j : ℤ := segIdx l.length pos
  let h := x.getD (j.toNat + 1) 0 - x.getD j.toNat 0
  let t := (pos - x.getD j.toNat 0) / h
  let t2 := t * t
  let t3 := t2 * t
  let h00 := 2*t3 - 3*t2 + 1
  let h10 := t3 - 2*t2 + t
  let h01 := -2*t3 + 3*t2
  let h11 := t3 - t2
  h00 * l.getD j.toNat 0 + h10 * h * ms.getD j.toNat 0
    + h01 * l.getD (j.toNat + 1) 0 + h11 * h * ms.getD (j.toNat + 1) 0

theorem applyMonotonicCubic_eq (l : List ℝ) (m : ℕ) (h2 : 2 ≤ l.length) :
    applyMonotonicCubic l m = (List.range m).map (fun (i : ℕ) =>
      mcValue l (monotonicCubicSlopes ((List.range l.length).map (fun (i : ℕ) => (i : ℝ))) l)
        ((i : ℝ) * ratioFor l.length m)) := by
  unfold applyMonotonicCubic
  rw [if_neg (by omega), if_neg (by omega)]
  rfl

theorem mcValue_eq_hermite (l ms : List ℝ) (p : ℝ) (h2 : 2 ≤ l.length) (hp0 : 0 ≤ p)
    (hp1 : p ≤ (l.length : ℝ) - 1) :
    mcValue l ms p = hermiteEval (l.getD (segIdx l.length p).toNat 0)
      (l.getD ((segIdx l.length p).toNat + 1) 0)
      (ms.getD (segIdx l.length p).toNat 0)
      (ms.getD ((segIdx l.length p).toNat + 1) 0)
      (p - ((segIdx l.length p).toNat : ℝ)) := by
  obtain ⟨hj0, hj2, _, _⟩ := segIdx_facts l.length p h2 hp0 hp1
  unfold mcValue
  simp only []
  have hx1 : ((List.range l.length).map (fun (i : ℕ) => (i : ℝ))).getD
      ((segIdx l.length p).toNat + 1) 0 = ((segIdx l.length p).toNat : ℝ) + 1 := by
    rw [getD_map_range _ (by omega)]
    push_cast
    ring
  have hx0 : ((List.range l.length).map (fun (i : ℕ) => (i : ℝ))).getD
      (segIdx l.length p).toNat 0 = ((segIdx l.length p).toNat : ℝ) := by
    rw [getD_map_range _ (by omega)]
  rw [hx1, hx0, show ((segIdx l.length p).toNat : ℝ) + 1 - ((segIdx l.length p).toNat : ℝ) = 1
    by ring, div_one]
  unfold hermiteEval
  ring

theorem mcValue_mono (l ms : List ℝ) (hnd : IsNondecreasing l) (h2 : 2 ≤ l.length)
    (hms0 : ∀ k, 0 ≤ ms.getD k 0)
    (hbox : ∀ k, k + 1 < l.length →
      ms.getD k 0 ≤ 3 * (l.getD (k+1) 0 - l.getD k 0) ∧
      ms.getD (k+1) 0 ≤ 3 * (l.getD (k+1) 0 - l.getD k 0))
    (p q : ℝ) (hp0 : 0 ≤ p) (hpq : p ≤ q) (hq1 : q ≤ (l.length : ℝ) - 1) :
    mcValue l ms p ≤ mcValue l ms q := by
  have hq0 : 0 ≤ q := le_trans hp0 hpq
  have hp1 : p ≤ (l.length : ℝ) - 1 := le_trans hpq hq1
  obtain ⟨hjp0, hjp2, hjple, hjpge⟩ := segIdx_facts l.length p h2 hp0 hp1
  obtain ⟨hjq0, hjq2, hjqle, hjqge⟩ := segIdx_facts l.length q h2 hq0 hq1
  rw [mcValue_eq_hermite l ms p h2 hp0 hp1, mcValue_eq_hermite l ms q h2 hq0 hq1]
  have hmono : segIdx l.length p ≤ segIdx l.length q := segIdx_mono l.length p q hpq
  have hJp1 : (segIdx l.length p).toNat + 1 < l.length := by omega
  have hJq1 : (segIdx l.length q).toNat + 1 < l.length := by omega
  have hcp : (((segIdx l.length p).toNat : ℕ) : ℝ) = ((segIdx l.length p : ℤ) : ℝ) := by
    exact_mod_cast congrArg (fun z => ((z : ℤ) : ℝ)) (Int.toNat_of_nonneg hjp0)
  have hcq : (((segIdx l.length q).toNat : ℕ) : ℝ) = ((segIdx l.length q : ℤ) : ℝ) := by
    exact_mod_cast congrArg (fun z => ((z : ℤ) : ℝ)) (Int.toNat_of_nonneg hjq0)
  by_cases heq : segIdx l.length p = segIdx l.length q
  · rw [heq]
    refine hermiteEval_mono _ _ _ _ _ _ (hnd _ hJq1) (hms0 _) (hms0 _)
      (hbox _ hJq1).1 (hbox _ hJq1).2 ?_ (by linarith) ?_
    · rw [hcq]
      rw [heq] at hjple
      linarith
    · rw [hcq]
      linarith [hjqge]
  · have hlt : segIdx l.length p < segIdx l.length q := lt_of_le_of_ne hmono heq
    have step1 : hermiteEval (l.getD (segIdx l.length p).toNat 0)
        (l.getD ((segIdx l.length p).toNat + 1) 0)
        (ms.getD (segIdx l.length p).toNat 0)
        (ms.getD ((segIdx l.length p).toNat + 1) 0)
        (p - ((segIdx l.length p).toNat : ℝ)) ≤ l.getD ((segIdx l.length p).toNat + 1) 0 := by
      have h := hermiteEval_mono (l.getD (segIdx l.length p).toNat 0)
        (l.getD ((segIdx l.length p).toNat + 1) 0)
        (ms.getD (segIdx l.length p).toNat 0)
        (ms.getD ((segIdx l.length p).toNat + 1) 0)
        (p - ((segIdx l.length p).toNat : ℝ)) 1
        (hnd _ hJp1) (hms0 _) (hms0 _) (hbox _ hJp1).1 (hbox _ hJp1).2
        (by rw [hcp]; linarith) (by rw [hcp]; linarith) le_rfl
      rw [hermiteEval_one] at h
      exact h
    have step2 : l.getD ((segIdx l.length p).toNat + 1) 0 ≤ l.getD (segIdx l.length q).toNat 0 :=
      nondec_le_of_le l hnd (segIdx l.length q).toNat ((segIdx l.length p).toNat + 1)
        (by omega) (by omega)
    have step3 : l.getD (segIdx l.length q).toNat 0 ≤ hermiteEval
        (l.getD (segIdx l.length q).toNat 0)
        (l.getD ((segIdx l.length q).toNat + 1) 0)
        (ms.getD (segIdx l.length q).toNat 0)
        (ms.getD ((segIdx l.length q).toNat + 1) 0)
        (q - ((segIdx l.length q).toNat : ℝ)) := by
      have h := hermiteEval_mono (l.getD (segIdx l.length q).toNat 0)
        (l.getD ((segIdx l.length q).toNat + 1) 0)
        (ms.getD (segIdx l.length q).toNat 0)
        (ms.getD ((segIdx l.length q).toNat + 1) 0)
        0 (q - ((segIdx l.length q).toNat : ℝ))
        (hnd _ hJq1) (hms0 _) (hms0 _) (hbox _ hJq1).1 (hbox _ hJq1).2
        le_rfl (by rw [hcq]; linarith) (by rw [hcq]; linarith)
      rw [hermiteEval_zero] at h
      exact h
    linarith

/-- C7: the MonotonicCubic selector preserves monotonicity: for a
nondecreasing input of length ≥ 2 and any requested count `m > len(in)`,
the resampled output is nondecreasing. -/
theorem interpolate_monotonic_cubic_preserves (l : List ℝ) (m : ℕ)
    (hnd : IsNondecreasing l) (h2 : 2 ≤ l.length) (hm : l.length < m) :
    IsNondecreasing ((Interpolate l m MonotonicCubic).1) := by
  show IsNondecreasing (applyMonotonicCubic l m)
  rw [applyMonotonicCubic_eq l m h2]
  intro i hi
  rw [List.length_map, List.length_range] at hi
  rw [getD_map_range _ (by omega), getD_map_range _ (by omega)]
  have hm2 : 2 ≤ m := by omega
  have hn1 : (0:ℝ) ≤ (l.length : ℝ) - 1 := by
    have : (2:ℝ) ≤ (l.length : ℝ) := by exact_mod_cast h2
    linarith
  have hm1 : (0:ℝ) < (m : ℝ) - 1 := by
    have : (2:ℝ) ≤ (m : ℝ) := by exact_mod_cast hm2
    linarith
  have hr : ratioFor l.length m = ((l.length : ℝ) - 1) / ((m : ℝ) - 1) := by
    unfold ratioFor
    rw [if_pos (by omega)]
  have hr0 : 0 ≤ ratioFor l.length m := by
    rw [hr]
    exact div_nonneg hn1 hm1.le
  obtain ⟨hslen, hsnn, hsbox⟩ := monotonicCubicSlopes_props l h2 hnd
  refine mcValue_mono l _ hnd h2 hsnn hsbox _ _
    (mul_nonneg (by positivity) hr0)
    (mul_le_mul_of_nonneg_right (by push_cast; linarith) hr0) ?_
  rw [hr]
  have hile : ((i:ℝ) + 1) ≤ (m : ℝ) - 1 := by
    have : ((i:ℝ) + 2) ≤ (m : ℝ) := by exact_mod_cast hi
    linarith
  calc ((i+1 : ℕ) : ℝ) * (((l.length : ℝ) - 1) / ((m : ℝ) - 1))
      ≤ ((m : ℝ) - 1) * (((l.length : ℝ) - 1) / ((m : ℝ) - 1)) := by
        apply mul_le_mul_of_nonneg_right _ (div_nonneg hn1 hm1.le)
        push_cast
        linarith
    _ = (l.length : ℝ) - 1 := by
        field_simp

/-- Witness for C7 at the nondecreasing input `[0, 1, 2]` with count 4. -/
theorem interpolate_monotonic_cubic_preserves_witness :
    IsNondecreasing ((Interpolate [(0:ℝ), 1, 2] 4 MonotonicCubic).1) :=
  interpolate_monotonic_cubic_preserves [(0:ℝ), 1, 2] 4
    (by
      intro i hi
      simp only [List.length_cons, List.length_nil] at hi
      have hle : i ≤ 1 := by omega
      interval_cases i <;> norm_num [List.getD])
    (by norm_num)
    (by norm_num)

end Interpolators

end
